import Mathlib

/-!
Verification development for the RKSV DEP verifier (`verify.py` and
`librksv/algorithms.py`).

The Python sources are shallowly embedded as executable Lean definitions:

* receipts parsed from JWS strings become the `Receipt` structure; a raw JWS
  string is identified with its parse result plus the outcome that the
  single-receipt verifier (`verify_receipt.py`, an external collaborator)
  produces for it (`JWS`);
* the per-register state machine `verifyGroup` becomes `vStep`/`runReceipts`/
  `verifyGroup`, returning `Except VErr` instead of raising exceptions;
* the parallel orchestration (`prepareVerificationTuples`,
  `getChunksForProcs`, `updateUsedReceiptIds`, `verifyParsedDEP`) is embedded
  over lists of chunks;
* the R1 algorithm's turnover-counter encryption is embedded at the byte
  level with the AES-256-CTR keystream and SHA-256 kept abstract (they are
  external crypto primitives consumed via `utils.py`);
* the certificate chain walk `verifyCert` and the whole-file `verifyDEP`
  group loop are embedded with the key store and X.509 primitives abstract.

External crypto (SHA-256, AES keystream, X.509 signature checks, base64) is
passed in as function parameters; nothing about their internals is assumed
beyond what the verifier code itself uses.
-/

namespace RKSV

/-! ## Data model: receipts and JWS strings -/

/-- Outcome of `rv.verifyJWS` on a raw JWS receipt string, as classified by
the single-receipt verifier: a valid signature, the two tolerated failure
sentinels (`SignatureSystemFailedException`, `UnsignedNullReceiptException`,
both caught by `verifyGroup`), or any other fatal verification error. -/
inductive SigStatus where
  | valid
  | sigFailed
  | unsignedNull
  | invalid
deriving DecidableEq, Repr

/-- Parsed receipt, the result of `receipt.Receipt.fromJWSString`.  The five
partitioned sums are fixed-point decimals with two fractional digits,
embedded exactly as integer counts of cents (the decimal `sum_X` is
`sumX / 100`); `turnoverDelta_eq_pyRound` below relates this embedding to
the source's `int(round(sum * 100))`.  `isDummy`, `isReversal` and
`isSignedBroken` are the receipt classification predicates (determined by
operator-tag suffixes and the encrypted-turnover sentinel in the external
receipt module), carried as fields.  `decTurnover` is the integer that
`ro.decryptTurnoverCounter(key, algorithm)` returns for the ambient
decryption key. -/
structure Receipt where
  receiptId : String
  registerId : String
  zda : String
  sumA : ℤ
  sumB : ℤ
  sumC : ℤ
  sumD : ℤ
  sumE : ℤ
  isDummy : Bool
  isReversal : Bool
  isSignedBroken : Bool
  previousChain : String
  decTurnover : ℤ
deriving DecidableEq, Repr

/-- Null receipt predicate: all five sums are zero (`receipt.py`). -/
def Receipt.isNull (r : Receipt) : Bool :=
  decide (r.sumA = 0 ∧ r.sumB = 0 ∧ r.sumC = 0 ∧ r.sumD = 0 ∧ r.sumE = 0)

/-- A raw JWS receipt string, identified with its parse result together with
the signature-verification outcome the receipt verifier yields for it.
`fromJWSString` on the string returns `ro`; `rv.verifyJWS` returns `ro`
with status `sig`. -/
structure JWS where
  ro : Receipt
  sig : SigStatus
deriving DecidableEq, Repr

/-- The exceptions `verifyGroup`, `updateUsedReceiptIds` and `verifyDEP` can
raise, with the receipt ID they carry where applicable. -/
inductive VErr where
  | signatureSystemFailedOnInitialReceipt (rid : String)
  | noRestoreReceiptAfterSignatureSystemFailure (rid : String)
  | nonzeroTurnoverOnInitialReceipt (rid : String)
  | nonstandardTypeOnInitialReceipt (rid : String)
  | clusterInOpenSystem
  | duplicateReceiptId (rid : String)
  | changingRegisterId (rid : String)
  | changingSystemType (rid : String)
  | chaining (rid : String)
  | invalidChainingOnInitialReceipt (rid : String)
  | invalidChainingOnClusterInitialReceipt (rid : String)
  | invalidTurnoverCounter (rid : String)
  | invalidSignature (rid : String)
  | noCertificateGiven
  | untrustedCertificate (keyId : String)
  | certificateSerialCollision (keyId : String)
  | certificateChainBroken (keyId signerId : String)
deriving DecidableEq, Repr

/-- Decidable equality of `Except` results, for evaluating concrete runs. -/
instance {ε α : Type} [DecidableEq ε] [DecidableEq α] :
    DecidableEq (Except ε α) := fun x y =>
  match x, y with
  | .error e, .error f =>
    if h : e = f then .isTrue (by rw [h]) else
      .isFalse (fun hh => by cases hh; exact h rfl)
  | .ok a, .ok b =>
    if h : a = b then .isTrue (by rw [h]) else
      .isFalse (fun hh => by cases hh; exact h rfl)
  | .error _, .ok _ => .isFalse (fun hh => by cases hh)
  | .ok _, .error _ => .isFalse (fun hh => by cases hh)

/-- `verification_state.CashRegisterState`: the mutable per-register record. -/
structure CashRegisterState where
  startReceiptJWS : Option JWS
  lastReceiptJWS : Option JWS
  lastTurnoverCounter : ℤ
  needRestoreReceipt : Bool
deriving DecidableEq, Repr

/-- Fresh register state, as built by `CashRegisterState()`. -/
def CashRegisterState.fresh : CashRegisterState :=
  ⟨none, none, 0, false⟩

/-- Python 2 `round` on a rational: round half away from zero. -/
def pyRound (q : ℚ) : ℤ :=
  if q < 0 then -⌊-q + 1/2⌋ else ⌊q + 1/2⌋

/-- The turnover-counter increment of one receipt:
`int(round((ro.sumA + ro.sumB + ro.sumC + ro.sumD + ro.sumE) * 100))`.
With the sums carried in cents the rounding is exact;
`turnoverDelta_eq_pyRound` proves the two forms agree. -/
def Receipt.turnoverDelta (r : Receipt) : ℤ :=
  r.sumA + r.sumB + r.sumC + r.sumD + r.sumE

/-- The decimal value of a sum field carried in cents. -/
def centsToRat (n : ℤ) : ℚ :=
  (n : ℚ) / 100

/-- Ambient configuration of one `verifyGroup` run: the chain function
composed with base64 (`base64.b64encode(algorithm.chain(rec, prev))`,
decoded to a string), whether a turnover decryption key was supplied, and
the start receipt of the previous register in the GGS cluster
(`prevStartReceiptJWS`). -/
structure VCfg where
  b64chain : Option JWS → Receipt → String
  key : Bool
  prevStart : Option JWS

/-- Loop state of `verifyGroup`: the `prev` variable plus the mutable fields
of the cash register state that the loop reads and writes, plus the used
receipt ID set (a list with set discipline). -/
structure VState where
  prev : Option JWS
  needRestoreReceipt : Bool
  startReceiptJWS : Option JWS
  lastTurnoverCounter : ℤ
  used : List String
deriving DecidableEq, Repr

/-- Build the loop state entering `verifyGroup`'s receipt loop:
`prev = cashRegisterState.lastReceiptJWS`, `prevObj` its parse. -/
def VState.ofCRS (S : CashRegisterState) (used : List String) : VState :=
  ⟨S.lastReceiptJWS, S.needRestoreReceipt, S.startReceiptJWS,
    S.lastTurnoverCounter, used⟩

/-- Rebuild the cash register state returned by `verifyGroup`
(`cashRegisterState.lastReceiptJWS = prev` at the end of the loop). -/
def VState.toCRS (st : VState) : CashRegisterState :=
  ⟨st.startReceiptJWS, st.prev, st.lastTurnoverCounter, st.needRestoreReceipt⟩

/-! ## The per-receipt body of `verifyGroup`'s loop (verify.py 375-456) -/

/-- Signature verification plus the restore-receipt discipline
(verify.py 379-401): the `try` block around `rv.verifyJWS` and the
`if not ro` recovery branch.  Returns whether `ro` was obtained inside the
`try` block together with the updated `needRestoreReceipt` flag. -/
def discStep (prev : Option JWS) (needRestore : Bool) (r : JWS) :
    Except VErr (Bool × Bool) :=
  match r.sig with
  | .invalid => .error (.invalidSignature r.ro.receiptId)
  | .valid =>
    match prev with
    | some p =>
      if !r.ro.isNull || r.ro.isDummy || r.ro.isReversal then
        if needRestore then
          .error (.noRestoreReceiptAfterSignatureSystemFailure r.ro.receiptId)
        else
          .ok (true, p.ro.isSignedBroken)
      else
        .ok (true, false)
    | none => .ok (true, false)
  | _ =>
    match prev with
    | none => .error (.signatureSystemFailedOnInitialReceipt r.ro.receiptId)
    | some _ =>
      if needRestore then
        .error (.noRestoreReceiptAfterSignatureSystemFailure r.ro.receiptId)
      else
        .ok (false, needRestore)

/-- Initial-receipt handling (verify.py 403-418): when no previous receipt
exists, enforce the initial-receipt invariants, optionally seed `prev` with
the cluster previous-start receipt, and record the start receipt.  Returns
the (possibly seeded) previous JWS and the updated `startReceiptJWS`. -/
def initStep (cfg : VCfg) (prev : Option JWS) (start : Option JWS) (r : JWS) :
    Except VErr (Option JWS × Option JWS) :=
  match prev with
  | some p => .ok (some p, start)
  | none =>
    if !r.ro.isNull then
      .error (.nonzeroTurnoverOnInitialReceipt r.ro.receiptId)
    else if r.ro.isDummy || r.ro.isReversal then
      .error (.nonstandardTypeOnInitialReceipt r.ro.receiptId)
    else
      match cfg.prevStart with
      | some ps =>
        if r.ro.zda ≠ "AT0" then .error .clusterInOpenSystem
        else if ps.ro.zda ≠ "AT0" then .error .clusterInOpenSystem
        else .ok (some ps, some r)
      | none => .ok (none, some r)

/-- Cross-receipt invariants (verify.py 420-433): duplicate receipt ID,
changing register ID, changing system type. -/
def crossChecks (used : List String) (prev2 : Option JWS) (ro : Receipt) :
    Except VErr Unit :=
  match prev2 with
  | none => .ok ()
  | some p2 =>
    if ro.receiptId ∈ used then
      .error (.duplicateReceiptId ro.receiptId)
    else if p2.ro.registerId ≠ ro.registerId then
      .error (.changingRegisterId ro.receiptId)
    else if (decide (p2.ro.zda = "AT0")) ≠ (decide (ro.zda = "AT0")) then
      .error (.changingSystemType ro.receiptId)
    else .ok ()

/-- Chain verification and its exception refinement (verify.py 262-275 and
435-443): compare the base64-encoded chain value against the receipt's
`previousChain`; on mismatch raise the cluster-initial, initial, or plain
chaining exception depending on whether the current raw JWS equals the
recorded start receipt and on whether a cluster previous-start was given. -/
def chainCheck (cfg : VCfg) (start2 : Option JWS) (prev2 : Option JWS)
    (r : JWS) : Except VErr Unit :=
  if cfg.b64chain prev2 r.ro ≠ r.ro.previousChain then
    if start2 = some r then
      if cfg.prevStart.isSome then
        .error (.invalidChainingOnClusterInitialReceipt r.ro.receiptId)
      else
        .error (.invalidChainingOnInitialReceipt r.ro.receiptId)
    else .error (.chaining r.ro.receiptId)
  else .ok ()

/-- Turnover-counter reconciliation (verify.py 445-453): when a key was
supplied and the receipt is not a dummy, compute `newC`, compare the
decrypted counter for non-reversals, and update the counter.  Returns the
updated `lastTurnoverCounter`. -/
def turnoverStep (key : Bool) (c : ℤ) (ro : Receipt) : Except VErr ℤ :=
  if !ro.isDummy then
    if key then
      let newC := c + ro.turnoverDelta
      if !ro.isReversal && decide (ro.decTurnover ≠ newC) then
        .error (.invalidTurnoverCounter ro.receiptId)
      else
        .ok newC
    else .ok c
  else .ok c

/-- One iteration of `verifyGroup`'s receipt loop (verify.py 375-456). -/
def vStep (cfg : VCfg) (st : VState) (r : JWS) : Except VErr VState :=
  match discStep st.prev st.needRestoreReceipt r with
  | .error e => .error e
  | .ok (_, flag1) =>
    match initStep cfg st.prev st.startReceiptJWS r with
    | .error e => .error e
    | .ok (prev2, start2) =>
      match crossChecks st.used prev2 r.ro with
      | .error e => .error e
      | .ok _ =>
        let used2 := st.used.insert r.ro.receiptId
        match chainCheck cfg start2 prev2 r with
        | .error e => .error e
        | .ok _ =>
          match turnoverStep cfg.key st.lastTurnoverCounter r.ro with
          | .error e => .error e
          | .ok c2 => .ok ⟨some r, flag1, start2, c2, used2⟩

/-- The receipt loop of `verifyGroup` over a list of raw JWS strings. -/
def runReceipts (cfg : VCfg) : VState → List JWS → Except VErr VState
  | st, [] => .ok st
  | st, r :: rs =>
    match vStep cfg st r with
    | .error e => .error e
    | .ok st2 => runReceipts cfg st2 rs

/-- `verifyGroup` (verify.py 320-459): run the loop from the given register
state and used-ID set, then store the last JWS back into the register state
and return both. -/
def verifyGroup (cfg : VCfg) (S : CashRegisterState) (used : List String)
    (group : List JWS) : Except VErr (CashRegisterState × List String) :=
  match runReceipts cfg (VState.ofCRS S used) group with
  | .error e => .error e
  | .ok st => .ok (st.toCRS, st.used)

/-! ## Parallel orchestration (verify.py 461-694)

A chunk produced by the DEP parser is a list of groups; each group is a list
of raw JWS strings.  Certificate packaging (`packageChunkWithVerifiers`)
attaches a receipt verifier to each group; its effect on signature outcomes
is already carried in each `JWS.sig`, so a chunk is embedded as its list of
groups. -/

/-- `verifyGroupsWithVerifiers` (verify.py 461-512): fold `verifyGroup` over
the groups of one work package, threading register state and used IDs. -/
def verifyGroupsWithVerifiers (cfg : VCfg) :
    CashRegisterState → List String → List (List JWS) →
    Except VErr (CashRegisterState × List String)
  | S, used, [] => .ok (S, used)
  | S, used, g :: gs =>
    match verifyGroup cfg S used g with
    | .error e => .error e
    | .ok (S2, used2) => verifyGroupsWithVerifiers cfg S2 used2 gs

/-- Modelled from the spec: the cheap per-receipt pass underlying
`CashRegisterState.fromDEPGroup`, which lives in `verification_state.py` and
is not among the sources.  Per spec section 4.6 step 2 the projection
applies only the turnover delta (for non-dummy receipts, when a key is
given) and updates `last_receipt_jws`; per section 3 `start_receipt_jws`
records the very first receipt of the register, so a receipt seen by a
register with no previous receipt supplies it.  `need_restore_receipt` is
not touched by the projection. -/
def depStep (key : Bool) (S : CashRegisterState) (r : JWS) :
    CashRegisterState :=
  { startReceiptJWS :=
      if S.lastReceiptJWS = none then some r else S.startReceiptJWS
    lastReceiptJWS := some r
    lastTurnoverCounter := S.lastTurnoverCounter +
      (if !r.ro.isDummy && key then r.ro.turnoverDelta else 0)
    needRestoreReceipt := S.needRestoreReceipt }

/-- Modelled from the spec: `CashRegisterState.fromDEPGroup`
(`verification_state.py`, not among the sources): the cheap local pass over
one group, folding `depStep` over its receipts. -/
def fromDEPGroup (key : Bool) (S : CashRegisterState) (g : List JWS) :
    CashRegisterState :=
  g.foldl (depStep key) S

/-- Fold of `fromDEPGroup` over the groups of one chunk, as performed by the
inner loop of `prepareVerificationTuples` (verify.py 603-607). -/
def fromDEPChunk (key : Bool) (S : CashRegisterState)
    (ch : List (List JWS)) : CashRegisterState :=
  ch.foldl (fromDEPGroup key) S

/-- `prepareVerificationTuples` (verify.py 598-611): compute the projected
starting cash register state of each work package; package `i + 1` starts
from the projection of package `i`'s groups applied to package `i`'s start
state, and the trailing state is dropped. -/
def pkgStates (key : Bool) : CashRegisterState → List (List (List JWS)) →
    List CashRegisterState
  | _, [] => []
  | S, p :: ps => S :: pkgStates key (fromDEPChunk key S p) ps

/-- `getChunksForProcs` (verify.py 587-596): split the chunk stream into
batches of at most `nprocs` chunks, the last batch possibly smaller; `acc`
is the `ret` list being accumulated. -/
def getChunksForProcs (nprocs : ℕ) : List (List (List JWS)) →
    List (List (List JWS)) → List (List (List (List JWS)))
  | acc, [] => if acc.isEmpty then [] else [acc]
  | acc, c :: cs =>
    if nprocs ≤ (acc ++ [c]).length then
      (acc ++ [c]) :: getChunksForProcs nprocs [] cs
    else getChunksForProcs nprocs (acc ++ [c]) cs

/-- `updateUsedReceiptIds`'s inner loop (verify.py 558-563): add every ID of
`rids` to `seen`, raising `DuplicateReceiptIdException` on an ID already
seen. -/
def addAllUnique : List String → List String → Except VErr (List String)
  | seen, [] => .ok seen
  | seen, rid :: rest =>
    if rid ∈ seen then .error (.duplicateReceiptId rid)
    else addAllUnique (seen ++ [rid]) rest

/-- `updateUsedReceiptIds` (verify.py 555-565): merge the caller's used-ID
set with the per-package used-ID sets, raising on any duplicate. -/
def updateUsedReceiptIds (outUsedRecIds : List (List String))
    (usedRecIds : List String) : Except VErr (List String) :=
  (usedRecIds :: outUsedRecIds).foldlM addAllUnique []

/-- Run one batch of work packages (the body of `verifyParsedDEP`'s loop,
verify.py 671-687): project per-package start states with
`prepareVerificationTuples`, then apply `verifyGroupsWithVerifiers` to each
package with its projected state and an empty used-ID set. -/
def runBatch (cfg : VCfg) (S : CashRegisterState)
    (batch : List (List (List JWS))) :
    Except VErr (List (CashRegisterState × List String)) :=
  (batch.zip (pkgStates cfg.key S batch)).mapM
    (fun pc => verifyGroupsWithVerifiers cfg pc.2 [] pc.1)

/-- The batch loop of `verifyParsedDEP`: after each batch, merge the
per-package used-ID sets into the running set with `updateUsedReceiptIds`
and continue from the last package's final register state
(`outRStates[-1]`). -/
def vpLoop (cfg : VCfg) : CashRegisterState → List String →
    List (List (List (List JWS))) →
    Except VErr (CashRegisterState × List String)
  | S, used, [] => .ok (S, used)
  | S, used, b :: bs =>
    match runBatch cfg S b with
    | .error e => .error e
    | .ok results =>
      match updateUsedReceiptIds (results.map Prod.snd) used with
      | .error e => .error e
      | .ok used2 =>
        vpLoop cfg (((results.map Prod.fst).getLast?).getD S) used2 bs

/-- `verifyParsedDEP` (verify.py 613-694) for one cash register, starting
from register state `S`, cluster used-ID set `used` and the parsed chunk
stream: batch the chunks by `nprocs` and run the batch loop. -/
def verifyParsedDEP (cfg : VCfg) (nprocs : ℕ) (S : CashRegisterState)
    (used : List String) (stream : List (List (List JWS))) :
    Except VErr (CashRegisterState × List String) :=
  vpLoop cfg S used (getChunksForProcs nprocs [] stream)

/-- All receipts of one chunk in order. -/
def chunkReceipts (ch : List (List JWS)) : List JWS :=
  ch.foldr (· ++ ·) []

/-- All receipts of a list of chunks in order. -/
def chunksReceipts (chs : List (List (List JWS))) : List JWS :=
  (chs.map chunkReceipts).foldr (· ++ ·) []

/-- All receipts of a chunk stream in order, the sequence the single-worker
reference run processes. -/
def streamReceipts (stream : List (List (List JWS))) : List JWS :=
  chunksReceipts stream

/-- The receipt IDs of a receipt sequence, in order. -/
def receiptIds (rs : List JWS) : List String :=
  rs.map (fun r => r.ro.receiptId)

/-- Whether the sequential run over `rs` (when it succeeds) leaves
`needRestoreReceipt` clear.  Used to state the boundary proviso of the
amended claim C1. -/
def seqFlagClear (cfg : VCfg) (S0 : CashRegisterState) (used0 : List String)
    (rs : List JWS) : Bool :=
  match runReceipts cfg (VState.ofCRS S0 used0) rs with
  | .ok st => !st.needRestoreReceipt
  | .error _ => true

/-! ## R1 algorithm, byte level (librksv/algorithms.py 145-221)

Bytes are naturals below 256.  SHA-256 (`utils.sha256` over the UTF-8
encoding) and the AES-256-CTR keystream (`utils.aes256ctr`) are external
crypto primitives and enter as function parameters; CTR mode combines the
plaintext with the position-indexed keystream by XOR. -/

/-- XOR a byte list with the keystream starting at block position `i`. -/
def ctrXor (ks : ℕ → ℕ) : ℕ → List ℕ → List ℕ
  | _, [] => []
  | i, b :: bs => (b ^^^ ks i % 256) :: ctrXor ks (i + 1) bs

/-- `utils.aes256ctr iv key data` for the keystream determined by `iv` and
`key`: XOR `data` with the keystream positionwise. -/
def aes256ctr (ks : ℕ → ℕ) (data : List ℕ) : List ℕ :=
  ctrXor ks 0 data

/-- Big-endian byte decomposition of a natural number into `size` bytes
(`int.to_bytes(size, byteorder='big')`). -/
def natToBytesBE : ℕ → ℕ → List ℕ
  | 0, _ => []
  | s + 1, u => natToBytesBE s (u / 256) ++ [u % 256]

/-- Big-endian byte composition (`int.from_bytes(-, byteorder='big')`). -/
def bytesToNatBE (bs : List ℕ) : ℕ :=
  bs.foldl (fun a b => a * 256 + b) 0

/-- `turnoverCounter.to_bytes(size, byteorder='big', signed=True)`: the
two's-complement big-endian encoding of an integer representable in `size`
signed bytes. -/
def intToBytesBE (size : ℕ) (c : ℤ) : List ℕ :=
  natToBytesBE size (c % ((2 : ℤ) ^ (8 * size))).toNat

/-- `int.from_bytes(decCtr, byteorder='big', signed=True)`: interpret a byte
list as a signed big-endian two's-complement integer. -/
def intFromBytesBESigned (bs : List ℕ) : ℤ :=
  let u := bytesToNatBE bs
  if 2 * u < 2 ^ (8 * bs.length) then (u : ℤ)
  else (u : ℤ) - 2 ^ (8 * bs.length)

/-- `R1.chainBytes` (algorithms.py 158-159). -/
def R1chainBytes : ℕ := 8

/-- `R1.chain` (algorithms.py 164-170): hash the previous JWS string when
one is present (Python truthiness: `None` and the empty string are absent),
else hash the receipt's register ID, and truncate to `chainBytes()` bytes.
`sha256` stands for SHA-256 over the UTF-8 encoding of its argument. -/
def R1chain (sha256 : String → List ℕ) (r : Receipt)
    (previousJwsString : Option String) : List ℕ :=
  let chainingValue :=
    match previousJwsString with
    | some p => if p = "" then sha256 r.registerId else sha256 p
    | none => sha256 r.registerId
  chainingValue.take R1chainBytes

/-- The CTR initialization vector of `R1.encryptTurnoverCounter` and
`R1.decryptTurnoverCounter` (algorithms.py 207-208, 215-216): the first 16
bytes of SHA-256 over register ID concatenated with receipt ID. -/
def R1iv (sha256 : String → List ℕ) (r : Receipt) : List ℕ :=
  (sha256 (r.registerId ++ r.receiptId)).take 16

/-- `R1.encryptTurnoverCounter` (algorithms.py 206-212).  `ks iv key` is the
AES-256-CTR keystream for the given IV and key. -/
def R1encryptTurnoverCounter (ks : List ℕ → List ℕ → ℕ → ℕ)
    (sha256 : String → List ℕ) (r : Receipt) (turnoverCounter : ℤ)
    (key : List ℕ) (size : ℕ) : List ℕ :=
  aes256ctr (ks (R1iv sha256 r) key) (intToBytesBE size turnoverCounter)

/-- `R1.decryptTurnoverCounter` (algorithms.py 214-219). -/
def R1decryptTurnoverCounter (ks : List ℕ → List ℕ → ℕ → ℕ)
    (sha256 : String → List ℕ) (r : Receipt) (encTurnoverCounter : List ℕ)
    (key : List ℕ) : ℤ :=
  intFromBytesBESigned (aes256ctr (ks (R1iv sha256 r) key) encTurnoverCounter)

/-! ## Certificate chain verification (verify.py 277-318) -/

/-- An X.509 certificate as `verifyCert` consumes it: its serial (already
mapped through `key_store.numSerialToKeyId`, which lives in the external
`key_store.py`) and its fingerprint (`utils.certFingerprint`). -/
structure Cert where
  keyId : String
  fingerprint : String
deriving DecidableEq, Repr

/-- Environment of `verifyCert`: the key store lookup `keyStore.getCert` and
the X.509 signature check `utils.verifyCert child parent`. -/
structure CertEnv where
  getCert : String → Option Cert
  signedBy : Cert → Cert → Bool

/-- The walk of `verifyCert` (verify.py 289-318): `orig` is the original
leaf certificate (whose key ID the final `UntrustedCertificateException`
carries), `prev` the certificate currently examined. -/
def verifyCertWalk (env : CertEnv) (orig : Cert) : Cert → List Cert →
    Except VErr Unit
  | prev, c :: rest =>
    match env.getCert prev.keyId with
    | some ksCert =>
      if ksCert.fingerprint ≠ prev.fingerprint then
        .error (.certificateSerialCollision prev.keyId)
      else .ok ()
    | none =>
      if !env.signedBy prev c then
        .error (.certificateChainBroken prev.keyId c.keyId)
      else verifyCertWalk env orig c rest
  | prev, [] =>
    match env.getCert prev.keyId with
    | some ksCert =>
      if ksCert.fingerprint ≠ prev.fingerprint then
        .error (.certificateSerialCollision prev.keyId)
      else .ok ()
    | none => .error (.untrustedCertificate orig.keyId)

/-- `verifyCert` (verify.py 277-318). -/
def verifyCert (env : CertEnv) (cert : Cert) (chain : List Cert) :
    Except VErr Unit :=
  verifyCertWalk env cert cert chain

/-! ## Whole-file `verifyDEP` group loop (verify.py 746-769) -/

/-- One group as `verifyDEP` sees it: its receipts, whether it carries a
certificate, and whether `verifyCert` accepts that certificate against the
key store (the certificate walk itself is modelled by `verifyCert` above;
here only its verdict matters). -/
structure DEPGroup where
  recs : List JWS
  hasCert : Bool
  certOK : Bool

/-- The group loop of `verifyDEP` (verify.py 746-769) with its `one_group`
tri-state (`none` = `None`, `some true` = a key-store-backed group was
processed, `some false` = a certificate-bearing group was processed).
Python truthiness: `if one_group:` fires only on `some true`;
`one_group == False` only on `some false`. -/
def verifyDEPLoop (cfg : VCfg) : Option Bool → CashRegisterState →
    List String → List DEPGroup → Except VErr (CashRegisterState × List String)
  | _, S, used, [] => .ok (S, used)
  | oneGroup, S, used, g :: gs =>
    if oneGroup = some true then .error .noCertificateGiven
    else if !g.hasCert then
      if oneGroup = some false then .error .noCertificateGiven
      else
        match verifyGroup cfg S used g.recs with
        | .error e => .error e
        | .ok (S2, used2) => verifyDEPLoop cfg (some true) S2 used2 gs
    else
      if !g.certOK then .error (.untrustedCertificate "")
      else
        match verifyGroup cfg S used g.recs with
        | .error e => .error e
        | .ok (S2, used2) => verifyDEPLoop cfg (some false) S2 used2 gs

/-! ## Concrete instances used by witnesses and counterexamples -/

/-- Null receipt with valid signature. -/
def recNull : Receipt :=
  ⟨"r1", "R", "AT1", 0, 0, 0, 0, 0, false, false, false, "c", 0⟩

/-- Signed-broken receipt (encrypted turnover carries the failure
sentinel); the verifier classifies its JWS as signature-system-failed. -/
def recBroken : Receipt :=
  ⟨"r2", "R", "AT1", 0, 0, 0, 0, 0, false, false, true, "c", 0⟩

/-- Nonzero sale receipt (1.00 in sum class A). -/
def recSale : Receipt :=
  ⟨"r3", "R", "AT1", 100, 0, 0, 0, 0, false, false, false, "c", 0⟩

/-- Second nonzero sale receipt. -/
def recSale2 : Receipt :=
  ⟨"r4", "R", "AT1", 200, 0, 0, 0, 0, false, false, false, "c", 0⟩

def jwsNull : JWS := ⟨recNull, .valid⟩

def jwsBroken : JWS := ⟨recBroken, .sigFailed⟩

def jwsSale : JWS := ⟨recSale, .valid⟩

def jwsSale2 : JWS := ⟨recSale2, .valid⟩

/-- Configuration whose chain function accepts chain value `"c"`
everywhere, with no turnover key and no cluster previous-start. -/
def cfgPlain : VCfg := ⟨fun _ _ => "c", false, none⟩

/-- Null receipt with ID `"x"`, for the duplicate-ID runs. -/
def recX : Receipt :=
  ⟨"x", "R", "AT1", 0, 0, 0, 0, 0, false, false, false, "c", 0⟩

def jwsX : JWS := ⟨recX, .valid⟩

/-- Sale whose decrypted turnover counter matches its sums. -/
def recTurn : Receipt :=
  ⟨"t1", "R", "AT1", 100, 0, 0, 0, 0, false, false, false, "c", 100⟩

/-- Sale whose decrypted turnover counter does not match its sums. -/
def recTurnBad : Receipt :=
  ⟨"t2", "R", "AT1", 100, 0, 0, 0, 0, false, false, false, "c", 99⟩

/-- Reversal receipt with a negative sum. -/
def recTurnRev : Receipt :=
  ⟨"t3", "R", "AT1", -100, 0, 0, 0, 0, false, true, false, "c", 0⟩

/-- Dummy receipt. -/
def recTurnDummy : Receipt :=
  ⟨"t4", "R", "AT1", 100, 0, 0, 0, 0, true, false, false, "c", 0⟩

/-- Receipt whose `previousChain` never matches `cfgPlain`'s chain value. -/
def recBadChain : Receipt :=
  ⟨"b1", "R", "AT1", 0, 0, 0, 0, 0, false, false, false, "d", 0⟩

def jwsBadChain : JWS := ⟨recBadChain, .valid⟩

/-- Start receipt of the previous register in a closed-system cluster. -/
def recStart0 : Receipt :=
  ⟨"s0", "R", "AT0", 0, 0, 0, 0, 0, false, false, false, "c", 0⟩

def jwsStart0 : JWS := ⟨recStart0, .valid⟩

/-- Closed-system initial receipt of the next cluster register. -/
def recInit0 : Receipt :=
  ⟨"s1", "R", "AT0", 0, 0, 0, 0, 0, false, false, false, "c", 0⟩

def jwsInit0 : JWS := ⟨recInit0, .valid⟩

/-- Open-system initial receipt (operator tag not `"AT0"`). -/
def recInit1 : Receipt :=
  ⟨"s2", "R", "AT1", 0, 0, 0, 0, 0, false, false, false, "c", 0⟩

def jwsInit1 : JWS := ⟨recInit1, .valid⟩

/-- Nonzero initial receipt. -/
def recInitSale : Receipt :=
  ⟨"s3", "R", "AT0", 100, 0, 0, 0, 0, false, false, false, "c", 0⟩

def jwsInitSale : JWS := ⟨recInitSale, .valid⟩

/-- Dummy initial receipt. -/
def recInitDummy : Receipt :=
  ⟨"s4", "R", "AT0", 0, 0, 0, 0, 0, true, false, false, "c", 0⟩

def jwsInitDummy : JWS := ⟨recInitDummy, .valid⟩

/-- Cluster configuration: previous-start `jwsStart0`, no key. -/
def cfgCluster : VCfg := ⟨fun _ _ => "c", false, some jwsStart0⟩

/-- Certificates for the `verifyCert` witness. -/
def certLeaf : Cert := ⟨"k1", "f1"⟩

def certMid : Cert := ⟨"k2", "f2"⟩

def certRoot : Cert := ⟨"k3", "f3"⟩

/-- Spoofed certificate: the leaf's key ID with another fingerprint. -/
def certSpoof : Cert := ⟨"k1", "fX"⟩

/-- Key store containing only the root certificate. -/
def envRootOnly : CertEnv :=
  ⟨fun kid => if kid = "k3" then some certRoot else none, fun _ _ => true⟩

/-- Key store containing the spoofed leaf serial. -/
def envSpoof : CertEnv :=
  ⟨fun kid => if kid = "k1" then some certSpoof else none, fun _ _ => true⟩

/-- Empty key store with failing signature checks. -/
def envNone : CertEnv :=
  ⟨fun _ => none, fun _ _ => false⟩

/-! ## Supporting lemmas -/

theorem floor_half : ⌊(1 : ℚ) / 2⌋ = 0 := by
  rw [Int.floor_eq_iff]
  norm_num

theorem pyRound_intCast (n : ℤ) : pyRound (n : ℚ) = n := by
  unfold pyRound
  split
  · have h1 : -(n : ℚ) + 1 / 2 = ((-n : ℤ) : ℚ) + 1 / 2 := by push_cast; ring
    rw [h1, Int.floor_int_add, floor_half]
    omega
  · rw [show (n : ℚ) + 1 / 2 = ((n : ℤ) : ℚ) + 1 / 2 from rfl,
      Int.floor_int_add, floor_half]
    omega

/-- The cents embedding of the sums agrees with the source's
`int(round((sumA + sumB + sumC + sumD + sumE) * 100))` evaluated on the
decimal values of the sums. -/
theorem turnoverDelta_eq_pyRound (r : Receipt) :
    r.turnoverDelta =
      pyRound ((centsToRat r.sumA + centsToRat r.sumB + centsToRat r.sumC +
        centsToRat r.sumD + centsToRat r.sumE) * 100) := by
  have h : (centsToRat r.sumA + centsToRat r.sumB + centsToRat r.sumC +
      centsToRat r.sumD + centsToRat r.sumE) * 100 =
      ((r.sumA + r.sumB + r.sumC + r.sumD + r.sumE : ℤ) : ℚ) := by
    unfold centsToRat
    push_cast
    ring
  rw [h, pyRound_intCast]
  rfl

/-! ## Claim C4: turnover-counter reconciliation -/

/-- C4: when a decryption key is supplied and the receipt is not a dummy,
`verifyGroup` computes `newC = lastTurnoverCounter + round(100 * (sumA +
sumB + sumC + sumD + sumE))` in integer cents; for non-reversals it raises
`InvalidTurnoverCounterException` exactly when the decrypted turnover
counter differs from `newC`, and otherwise returns `newC`; reversals update
to `newC` without comparison; dummy receipts, or runs without a key, leave
the counter unchanged. -/
theorem claim_C4 (key : Bool) (c : ℤ) (ro : Receipt) (newC : ℤ)
    (hnew : newC = c +
      pyRound ((centsToRat ro.sumA + centsToRat ro.sumB + centsToRat ro.sumC +
        centsToRat ro.sumD + centsToRat ro.sumE) * 100)) :
    (ro.isDummy = false → key = true → ro.isReversal = false →
      ro.decTurnover = newC → turnoverStep key c ro = .ok newC) ∧
    (ro.isDummy = false → key = true → ro.isReversal = false →
      ro.decTurnover ≠ newC →
      turnoverStep key c ro = .error (.invalidTurnoverCounter ro.receiptId)) ∧
    (ro.isDummy = false → key = true → ro.isReversal = true →
      turnoverStep key c ro = .ok newC) ∧
    (ro.isDummy = true ∨ key = false → turnoverStep key c ro = .ok c) := by
  have hnewC : newC = c + ro.turnoverDelta := by
    rw [hnew, ← turnoverDelta_eq_pyRound]
  subst hnewC
  refine ⟨?_, ?_, ?_, ?_⟩
  · intro hd hk hr he
    simp [turnoverStep, hd, hk, hr, he]
  · intro hd hk hr he
    simp [turnoverStep, hd, hk, hr, he]
  · intro hd hk hr
    simp [turnoverStep, hd, hk, hr]
  · intro h
    rcases h with hd | hk
    · simp [turnoverStep, hd]
    · cases hdm : ro.isDummy <;> simp [turnoverStep, hdm, hk]

theorem claim_C4_witness :
    turnoverStep true 0 recTurn = .ok 100 ∧
    turnoverStep true 0 recTurnBad =
      .error (.invalidTurnoverCounter "t2") ∧
    turnoverStep true 0 recTurnRev = .ok (-100) ∧
    turnoverStep true 7 recTurnDummy = .ok 7 ∧
    turnoverStep false 7 recTurn = .ok 7 := by
  have h1 := claim_C4 true 0 recTurn 100
    (by rw [← turnoverDelta_eq_pyRound]; decide)
  have h2 := claim_C4 true 0 recTurnBad 100
    (by rw [← turnoverDelta_eq_pyRound]; decide)
  have h3 := claim_C4 true 0 recTurnRev (-100)
    (by rw [← turnoverDelta_eq_pyRound]; decide)
  have h4 := claim_C4 true 7 recTurnDummy 107
    (by rw [← turnoverDelta_eq_pyRound]; decide)
  have h5 := claim_C4 false 7 recTurn 107
    (by rw [← turnoverDelta_eq_pyRound]; decide)
  exact ⟨h1.1 rfl rfl rfl (by decide), h2.2.1 rfl rfl rfl (by decide),
    h3.2.2.1 rfl rfl rfl, h4.2.2.2 (Or.inl rfl), h5.2.2.2 (Or.inr rfl)⟩

/-! ## Claim C6: chain check and its exception refinement -/

/-- C6: the chain check compares the base64-encoded chain value computed by
the algorithm over the current receipt and the previous JWS against the
receipt's `previousChain`; on match nothing is raised; on mismatch it
raises `InvalidChainingOnClusterInitialReceiptException` when the current
raw JWS is the recorded start receipt and a cluster previous-start was
supplied, `InvalidChainingOnInitialReceiptException` when it is the start
receipt without one, and `ChainingException` otherwise. -/
theorem claim_C6 (cfg : VCfg) (start2 prev2 : Option JWS) (r : JWS) :
    (cfg.b64chain prev2 r.ro = r.ro.previousChain →
      chainCheck cfg start2 prev2 r = .ok ()) ∧
    (cfg.b64chain prev2 r.ro ≠ r.ro.previousChain → start2 = some r →
      cfg.prevStart.isSome = true →
      chainCheck cfg start2 prev2 r =
        .error (.invalidChainingOnClusterInitialReceipt r.ro.receiptId)) ∧
    (cfg.b64chain prev2 r.ro ≠ r.ro.previousChain → start2 = some r →
      cfg.prevStart = none →
      chainCheck cfg start2 prev2 r =
        .error (.invalidChainingOnInitialReceipt r.ro.receiptId)) ∧
    (cfg.b64chain prev2 r.ro ≠ r.ro.previousChain → start2 ≠ some r →
      chainCheck cfg start2 prev2 r = .error (.chaining r.ro.receiptId)) := by
  refine ⟨?_, ?_, ?_, ?_⟩
  · intro h
    simp [chainCheck, h]
  · intro h hs hp
    simp [chainCheck, h, hs, hp]
  · intro h hs hp
    simp [chainCheck, h, hs, hp]
  · intro h hs
    simp [chainCheck, h, hs]

theorem claim_C6_witness :
    chainCheck cfgPlain (some jwsNull) (some jwsNull) jwsSale = .ok () ∧
    chainCheck cfgCluster (some jwsBadChain) none jwsBadChain =
      .error (.invalidChainingOnClusterInitialReceipt "b1") ∧
    chainCheck cfgPlain (some jwsBadChain) none jwsBadChain =
      .error (.invalidChainingOnInitialReceipt "b1") ∧
    chainCheck cfgPlain (some jwsNull) (some jwsNull) jwsBadChain =
      .error (.chaining "b1") := by
  exact ⟨(claim_C6 cfgPlain (some jwsNull) (some jwsNull) jwsSale).1
      (by decide),
    (claim_C6 cfgCluster (some jwsBadChain) none jwsBadChain).2.1
      (by decide) rfl rfl,
    (claim_C6 cfgPlain (some jwsBadChain) none jwsBadChain).2.2.1
      (by decide) rfl rfl,
    (claim_C6 cfgPlain (some jwsNull) (some jwsNull) jwsBadChain).2.2.2
      (by decide) (by decide)⟩

/-! ## Claim C7: the R1 chain value -/

/-- C7: for every receipt and previous-JWS argument, `R1.chain` returns the
first 8 bytes (`chainBytes() = 8`) of SHA-256 of the previous JWS string
when one is present, and the first 8 bytes of SHA-256 of the receipt's
register ID when it is absent. -/
theorem claim_C7 (sha256 : String → List ℕ) (r : Receipt) (p : String) :
    (p ≠ "" → R1chain sha256 r (some p) = (sha256 p).take 8) ∧
    R1chain sha256 r none = (sha256 r.registerId).take 8 ∧
    R1chainBytes = 8 := by
  refine ⟨fun hp => ?_, rfl, rfl⟩
  simp [R1chain, R1chainBytes, hp]

theorem claim_C7_witness :
    R1chain (fun s => [s.length]) recNull (some "jws") = [3] ∧
    R1chain (fun s => [s.length]) recNull none = [1] := by
  exact ⟨by rw [(claim_C7 (fun s => [s.length]) recNull "jws").1 (by decide)]
            decide,
    by rw [(claim_C7 (fun s => [s.length]) recNull "x").2.1]; decide⟩

/-! ## Claim C8: initial-receipt invariants -/

/-- C8: when the register state holds no previous receipt and the receipt's
signature verifies, `verifyGroup` raises
`NonzeroTurnoverOnInitialReceiptException` for a non-null first receipt,
`NonstandardTypeOnInitialReceiptException` for a dummy or reversal first
receipt, and, when a cluster previous-start is supplied,
`ClusterInOpenSystemException` unless both operator tags are `"AT0"`; when
the checks pass it records the receipt as `startReceiptJWS` and seeds the
chain check's previous JWS with the cluster previous-start. -/
theorem claim_C8 (cfg : VCfg) (st : VState) (r : JWS)
    (hprev : st.prev = none) (hsig : r.sig = .valid) :
    (r.ro.isNull = false →
      vStep cfg st r =
        .error (.nonzeroTurnoverOnInitialReceipt r.ro.receiptId)) ∧
    (r.ro.isNull = true → (r.ro.isDummy = true ∨ r.ro.isReversal = true) →
      vStep cfg st r =
        .error (.nonstandardTypeOnInitialReceipt r.ro.receiptId)) ∧
    (∀ ps, cfg.prevStart = some ps → r.ro.isNull = true →
      r.ro.isDummy = false → r.ro.isReversal = false →
      (r.ro.zda ≠ "AT0" ∨ ps.ro.zda ≠ "AT0") →
      vStep cfg st r = .error .clusterInOpenSystem) ∧
    (∀ ps, cfg.prevStart = some ps → r.ro.isNull = true →
      r.ro.isDummy = false → r.ro.isReversal = false →
      r.ro.zda = "AT0" → ps.ro.zda = "AT0" →
      r.ro.receiptId ∉ st.used → ps.ro.registerId = r.ro.registerId →
      cfg.b64chain (some ps) r.ro ≠ r.ro.previousChain →
      vStep cfg st r =
        .error (.invalidChainingOnClusterInitialReceipt r.ro.receiptId)) ∧
    (∀ ps, cfg.prevStart = some ps → r.ro.isNull = true →
      r.ro.isDummy = false → r.ro.isReversal = false →
      r.ro.zda = "AT0" → ps.ro.zda = "AT0" →
      r.ro.receiptId ∉ st.used → ps.ro.registerId = r.ro.registerId →
      cfg.b64chain (some ps) r.ro = r.ro.previousChain → cfg.key = false →
      vStep cfg st r = .ok ⟨some r, false, some r, st.lastTurnoverCounter,
        st.used.insert r.ro.receiptId⟩) ∧
    (cfg.prevStart = none → r.ro.isNull = true →
      r.ro.isDummy = false → r.ro.isReversal = false →
      cfg.b64chain none r.ro = r.ro.previousChain → cfg.key = false →
      vStep cfg st r = .ok ⟨some r, false, some r, st.lastTurnoverCounter,
        st.used.insert r.ro.receiptId⟩) := by
  refine ⟨?_, ?_, ?_, ?_, ?_, ?_⟩
  · intro hn
    simp [vStep, discStep, initStep, hprev, hsig, hn]
  · intro hn hdr
    rcases hdr with hd | hr2
    · simp [vStep, discStep, initStep, hprev, hsig, hn, hd]
    · cases hd : r.ro.isDummy <;>
        simp [vStep, discStep, initStep, hprev, hsig, hn, hd, hr2]
  · intro ps hps hn hd hr2 hz
    rcases hz with hz | hz
    · simp [vStep, discStep, initStep, hprev, hsig, hn, hd, hr2, hps, hz]
    · by_cases hz1 : r.ro.zda = "AT0" <;>
        simp [vStep, discStep, initStep, hprev, hsig, hn, hd, hr2, hps,
          hz, hz1]
  · intro ps hps hn hd hr2 hz1 hz2 hu hreg hch
    simp [vStep, discStep, initStep, crossChecks, chainCheck, hprev, hsig,
      hn, hd, hr2, hps, hz1, hz2, hu, hreg, hch]
  · intro ps hps hn hd hr2 hz1 hz2 hu hreg hch hk
    simp [vStep, discStep, initStep, crossChecks, chainCheck, turnoverStep,
      hprev, hsig, hn, hd, hr2, hps, hz1, hz2, hu, hreg, hch, hk]
  · intro hps hn hd hr2 hch hk
    simp [vStep, discStep, initStep, crossChecks, chainCheck, turnoverStep,
      hprev, hsig, hn, hd, hr2, hps, hch, hk]

theorem claim_C8_witness :
    vStep cfgCluster (VState.ofCRS CashRegisterState.fresh []) jwsInitSale =
      .error (.nonzeroTurnoverOnInitialReceipt "s3") ∧
    vStep cfgCluster (VState.ofCRS CashRegisterState.fresh []) jwsInitDummy =
      .error (.nonstandardTypeOnInitialReceipt "s4") ∧
    vStep cfgCluster (VState.ofCRS CashRegisterState.fresh []) jwsInit1 =
      .error .clusterInOpenSystem ∧
    vStep cfgCluster (VState.ofCRS CashRegisterState.fresh []) jwsInit0 =
      .ok ⟨some jwsInit0, false, some jwsInit0, 0, ["s1"]⟩ ∧
    vStep cfgPlain (VState.ofCRS CashRegisterState.fresh []) jwsNull =
      .ok ⟨some jwsNull, false, some jwsNull, 0, ["r1"]⟩ := by
  have h1 := claim_C8 cfgCluster (VState.ofCRS CashRegisterState.fresh [])
    jwsInitSale rfl rfl
  have h2 := claim_C8 cfgCluster (VState.ofCRS CashRegisterState.fresh [])
    jwsInitDummy rfl rfl
  have h3 := claim_C8 cfgCluster (VState.ofCRS CashRegisterState.fresh [])
    jwsInit1 rfl rfl
  have h4 := claim_C8 cfgCluster (VState.ofCRS CashRegisterState.fresh [])
    jwsInit0 rfl rfl
  have h5 := claim_C8 cfgPlain (VState.ofCRS CashRegisterState.fresh [])
    jwsNull rfl rfl
  refine ⟨h1.1 (by decide), h2.2.1 (by decide) (Or.inl rfl),
    h3.2.2.1 jwsStart0 rfl (by decide) rfl rfl (Or.inl (by decide)), ?_, ?_⟩
  · have := h4.2.2.2.2.1 jwsStart0 rfl (by decide) rfl rfl rfl rfl
      (by decide) rfl rfl rfl
    simpa using this
  · have := h5.2.2.2.2.2 rfl (by decide) rfl rfl rfl rfl
    simpa using this

/-! ## Claim C2: restore-receipt discipline after a signature failure -/

/-- C2 counterexample: a signed-broken receipt (`jwsBroken`) immediately
followed by a non-null receipt (`jwsSale`), yet `verifyGroup` completes the
group without raising `NoRestoreReceiptAfterSignatureSystemFailureException`
at that receipt; it merely records the pending obligation in
`needRestoreReceipt`. -/
theorem claim_C2_counterexample :
    recBroken.isSignedBroken = true ∧ recSale.isNull = false ∧
    verifyGroup cfgPlain CashRegisterState.fresh []
        [jwsNull, jwsBroken, jwsSale] =
      .ok (⟨some jwsNull, some jwsSale, 0, true⟩, ["r3", "r2", "r1"]) := by
  exact ⟨rfl, by decide, by decide⟩

/-- C2 (amended): processing a receipt with valid signature that follows a
signed-broken receipt and is not a plain null receipt does not raise; it
sets `needRestoreReceipt`.  The exception is raised one receipt later: at
the next receipt processed while `needRestoreReceipt` is set that is not a
plain null receipt with valid signature — including any receipt taken
through the caught-exception path. -/
theorem claim_C2 (cfg : VCfg) (st : VState) (r : JWS) (p : JWS)
    (hprev : st.prev = some p) :
    (p.ro.isSignedBroken = true → st.needRestoreReceipt = false →
      r.sig = .valid →
      (r.ro.isNull = false ∨ r.ro.isDummy = true ∨ r.ro.isReversal = true) →
      ∀ st2, vStep cfg st r = .ok st2 → st2.needRestoreReceipt = true) ∧
    (st.needRestoreReceipt = true → r.sig = .valid →
      (r.ro.isNull = false ∨ r.ro.isDummy = true ∨ r.ro.isReversal = true) →
      vStep cfg st r =
        .error (.noRestoreReceiptAfterSignatureSystemFailure
          r.ro.receiptId)) ∧
    (st.needRestoreReceipt = true →
      (r.sig = .sigFailed ∨ r.sig = .unsignedNull) →
      vStep cfg st r =
        .error (.noRestoreReceiptAfterSignatureSystemFailure
          r.ro.receiptId)) := by
  refine ⟨?_, ?_, ?_⟩
  · intro hb hf hsig hnn st2 hok
    have hd : discStep st.prev st.needRestoreReceipt r = .ok (true, true) := by
      rcases hnn with hn | hn | hn <;>
        simp [discStep, hprev, hsig, hf, hb, hn]
    unfold vStep at hok
    rcases h2 : initStep cfg st.prev st.startReceiptJWS r with e | ⟨prev2, start2⟩
    · simp only [hd, h2] at hok
      cases hok
    · simp only [hd, h2] at hok
      rcases h3 : crossChecks st.used prev2 r.ro with e | u
      · simp only [h3] at hok
        cases hok
      · simp only [h3] at hok
        rcases h4 : chainCheck cfg start2 prev2 r with e | u2
        · simp only [h4] at hok
          cases hok
        · simp only [h4] at hok
          rcases h5 : turnoverStep cfg.key st.lastTurnoverCounter r.ro
            with e | c2
          · simp only [h5] at hok
            cases hok
          · simp only [h5] at hok
            cases hok
            rfl
  · intro hf hsig hnn
    have hd : discStep st.prev st.needRestoreReceipt r =
        .error (.noRestoreReceiptAfterSignatureSystemFailure
          r.ro.receiptId) := by
      rcases hnn with hn | hn | hn <;>
        simp [discStep, hprev, hsig, hf, hn]
    unfold vStep
    rw [hd]
  · intro hf hsig
    have hd : discStep st.prev st.needRestoreReceipt r =
        .error (.noRestoreReceiptAfterSignatureSystemFailure
          r.ro.receiptId) := by
      rcases hsig with hs | hs <;> simp [discStep, hprev, hs, hf]
    unfold vStep
    rw [hd]

theorem claim_C2_witness :
    (vStep cfgPlain ⟨some jwsBroken, false, some jwsNull, 0, ["r1", "r2"]⟩
        jwsSale =
      .ok ⟨some jwsSale, true, some jwsNull, 0, ["r3", "r1", "r2"]⟩) ∧
    (⟨some jwsSale, true, some jwsNull, 0,
        ["r3", "r1", "r2"]⟩ : VState).needRestoreReceipt = true ∧
    vStep cfgPlain ⟨some jwsSale, true, some jwsNull, 0, []⟩ jwsSale2 =
      .error (.noRestoreReceiptAfterSignatureSystemFailure "r4") ∧
    vStep cfgPlain ⟨some jwsSale, true, some jwsNull, 0, []⟩ jwsBroken =
      .error (.noRestoreReceiptAfterSignatureSystemFailure "r2") := by
  refine ⟨by decide, ?_, ?_, ?_⟩
  · exact (claim_C2 cfgPlain
      ⟨some jwsBroken, false, some jwsNull, 0, ["r1", "r2"]⟩ jwsSale
      jwsBroken rfl).1 rfl rfl rfl (Or.inl (by decide)) _ (by decide)
  · exact (claim_C2 cfgPlain
      ⟨some jwsSale, true, some jwsNull, 0, []⟩ jwsSale2 jwsSale rfl).2.1
      rfl rfl (Or.inl (by decide))
  · exact (claim_C2 cfgPlain
      ⟨some jwsSale, true, some jwsNull, 0, []⟩ jwsBroken jwsSale rfl).2.2
      rfl (Or.inl rfl)

/-! ## Claim C3: cluster-wide receipt-ID uniqueness -/

theorem addAllUnique_ok (l : List String) :
    ∀ seen, (seen ++ l).Nodup → addAllUnique seen l = .ok (seen ++ l) := by
  induction l with
  | nil => intro seen h; simp [addAllUnique]
  | cons rid rest ih =>
    intro seen h
    have hassoc : seen ++ rid :: rest = (seen ++ [rid]) ++ rest := by simp
    have hmem : rid ∉ seen := by
      rcases List.nodup_append.mp h with ⟨_, _, hdisj⟩
      intro hc
      exact hdisj hc (List.mem_cons_self rid rest)
    have h2 : ((seen ++ [rid]) ++ rest).Nodup := by rwa [← hassoc]
    simp only [addAllUnique, hmem, if_false]
    rw [ih (seen ++ [rid]) h2, hassoc]

theorem addAllUnique_err (l : List String) :
    ∀ seen, seen.Nodup → ¬(seen ++ l).Nodup →
      ∃ rid, addAllUnique seen l = .error (.duplicateReceiptId rid) := by
  induction l with
  | nil => intro seen hs h; simp at h; exact absurd hs h
  | cons rid rest ih =>
    intro seen hs h
    by_cases hmem : rid ∈ seen
    · exact ⟨rid, by simp [addAllUnique, hmem]⟩
    · have hs2 : (seen ++ [rid]).Nodup := by
        rw [List.nodup_append]
        refine ⟨hs, List.nodup_singleton rid, ?_⟩
        intro x hx hx2
        simp at hx2
        subst hx2
        exact hmem hx
      have h2 : ¬((seen ++ [rid]) ++ rest).Nodup := by
        intro hc
        exact h (by rwa [List.append_cons])
      obtain ⟨rid2, hr⟩ := ih (seen ++ [rid]) hs2 h2
      exact ⟨rid2, by simp only [addAllUnique, hmem, if_false]; exact hr⟩

theorem foldAdd_ok (ls : List (List String)) :
    ∀ seen, (seen ++ ls.flatten).Nodup →
      ls.foldlM addAllUnique seen = .ok (seen ++ ls.flatten) := by
  induction ls with
  | nil => intro seen h; simp; rfl
  | cons l ls ih =>
    intro seen h
    have hassoc : seen ++ (l :: ls).flatten = (seen ++ l) ++ ls.flatten := by
      simp
    rw [hassoc] at h
    have h1 : (seen ++ l).Nodup :=
      h.sublist (List.sublist_append_left (seen ++ l) ls.flatten)
    rw [List.foldlM_cons, addAllUnique_ok l seen h1]
    show ls.foldlM addAllUnique (seen ++ l) = _
    rw [ih (seen ++ l) h, hassoc]

theorem foldAdd_err (ls : List (List String)) :
    ∀ seen, seen.Nodup → ¬(seen ++ ls.flatten).Nodup →
      ∃ rid, ls.foldlM addAllUnique seen =
        .error (.duplicateReceiptId rid) := by
  induction ls with
  | nil => intro seen hs h; simp at h; exact absurd hs h
  | cons l ls ih =>
    intro seen hs h
    have hassoc : seen ++ (l :: ls).flatten = (seen ++ l) ++ ls.flatten := by
      simp
    rw [hassoc] at h
    by_cases h1 : (seen ++ l).Nodup
    · obtain ⟨rid, hr⟩ := ih (seen ++ l) h1 h
      refine ⟨rid, ?_⟩
      rw [List.foldlM_cons, addAllUnique_ok l seen h1]
      exact hr
    · obtain ⟨rid, hr⟩ := addAllUnique_err l seen hs h1
      refine ⟨rid, ?_⟩
      rw [List.foldlM_cons, hr]
      rfl

/-- C3 counterexample: the duplicate-ID check is bypassed for the initial
receipt of a fresh register verified without a cluster previous-start:
`verifyGroup` accepts a first receipt whose ID `"x"` is already in the
cluster's used-ID set, raising nothing. -/
theorem claim_C3_counterexample :
    "x" ∈ (["x"] : List String) ∧
    verifyGroup cfgPlain CashRegisterState.fresh ["x"] [jwsX] =
      .ok (⟨some jwsX, some jwsX, 0, false⟩, ["x"]) := by
  exact ⟨by decide, by decide⟩

/-- C3 (amended): the duplicate-ID check applies to every receipt processed
with a previous receipt object — every receipt except the initial receipt
of a fresh register verified without a cluster previous-start, where it is
bypassed — and raises `DuplicateReceiptIdException` whenever the receipt's
ID is already in the cluster used-ID set; `updateUsedReceiptIds` merges the
per-package sets and raises `DuplicateReceiptIdException` exactly when some
ID occurs twice across the caller's set and the merged sets. -/
theorem claim_C3 :
    (∀ (cfg : VCfg) (st : VState) (r : JWS) (p : JWS), r.sig = .valid →
      st.needRestoreReceipt = false → st.prev = some p →
      r.ro.receiptId ∈ st.used →
      vStep cfg st r = .error (.duplicateReceiptId r.ro.receiptId)) ∧
    (∀ (outs : List (List String)) (used merged : List String),
      updateUsedReceiptIds outs used = .ok merged →
      merged = (used :: outs).flatten ∧ merged.Nodup) ∧
    (∀ (outs : List (List String)) (used : List String),
      ¬((used :: outs).flatten).Nodup →
      ∃ rid, updateUsedReceiptIds outs used =
        .error (.duplicateReceiptId rid)) := by
  refine ⟨?_, ?_, ?_⟩
  · intro cfg st r p hsig hf hprev hmem
    cases hnn : r.ro.isNull <;> cases hd : r.ro.isDummy <;>
      cases hrv : r.ro.isReversal <;>
      simp [vStep, discStep, initStep, crossChecks, hsig, hf, hprev, hmem,
        hnn, hd, hrv]
  · intro outs used merged h
    by_cases hn : ((used :: outs).flatten).Nodup
    · have := foldAdd_ok (used :: outs) [] (by simpa using hn)
      rw [updateUsedReceiptIds, this] at h
      cases h
      exact ⟨by simp, by simpa using hn⟩
    · obtain ⟨rid, hr⟩ := foldAdd_err (used :: outs) [] List.nodup_nil
        (by simpa using hn)
      rw [updateUsedReceiptIds, hr] at h
      cases h
  · intro outs used hn
    obtain ⟨rid, hr⟩ := foldAdd_err (used :: outs) [] List.nodup_nil
      (by simpa using hn)
    exact ⟨rid, by rw [updateUsedReceiptIds, hr]⟩

theorem claim_C3_witness :
    vStep cfgPlain ⟨some jwsNull, false, some jwsNull, 0, ["r3"]⟩ jwsSale =
      .error (.duplicateReceiptId "r3") ∧
    (["a", "b"] = ([["a"], ["b"]] : List (List String)).flatten ∧
      (["a", "b"] : List String).Nodup) ∧
    (∃ rid, updateUsedReceiptIds [["a"]] ["a"] =
      .error (.duplicateReceiptId rid)) := by
  refine ⟨?_, ?_, ?_⟩
  · exact claim_C3.1 cfgPlain ⟨some jwsNull, false, some jwsNull, 0, ["r3"]⟩
      jwsSale jwsNull rfl rfl rfl (by decide)
  · exact claim_C3.2.1 [["b"]] ["a"] ["a", "b"] (by decide)
  · exact claim_C3.2.2 [["a"]] ["a"] (by decide)

/-! ## Claim C9: certificate chain walk -/

/-- C9: `verifyCert` walks the chain upward; at each certificate it looks
the serial up in the key store and, if found, accepts on matching
fingerprint and raises `CertificateSerialCollisionException` on a differing
one; if not found, it raises `CertificateChainBrokenException` unless the
certificate was signed by the next one, in which case it advances; after
the chain is exhausted the topmost certificate must itself be in the key
store with matching fingerprint, else `UntrustedCertificateException`. -/
theorem claim_C9 (env : CertEnv) (orig prev c : Cert) (rest : List Cert)
    (ksCert : Cert) :
    (env.getCert prev.keyId = some ksCert →
      ksCert.fingerprint = prev.fingerprint →
      verifyCertWalk env orig prev (c :: rest) = .ok () ∧
      verifyCertWalk env orig prev [] = .ok ()) ∧
    (env.getCert prev.keyId = some ksCert →
      ksCert.fingerprint ≠ prev.fingerprint →
      verifyCertWalk env orig prev (c :: rest) =
        .error (.certificateSerialCollision prev.keyId) ∧
      verifyCertWalk env orig prev [] =
        .error (.certificateSerialCollision prev.keyId)) ∧
    (env.getCert prev.keyId = none → env.signedBy prev c = false →
      verifyCertWalk env orig prev (c :: rest) =
        .error (.certificateChainBroken prev.keyId c.keyId)) ∧
    (env.getCert prev.keyId = none → env.signedBy prev c = true →
      verifyCertWalk env orig prev (c :: rest) =
        verifyCertWalk env orig c rest) ∧
    (env.getCert prev.keyId = none →
      verifyCertWalk env orig prev [] =
        .error (.untrustedCertificate orig.keyId)) ∧
    (∀ chain : List Cert,
      verifyCert env orig chain = verifyCertWalk env orig orig chain) := by
  refine ⟨?_, ?_, ?_, ?_, ?_, fun _ => rfl⟩
  · intro hks hfp
    constructor <;> simp [verifyCertWalk, hks, hfp]
  · intro hks hfp
    constructor <;> simp [verifyCertWalk, hks, hfp]
  · intro hks hsb
    simp [verifyCertWalk, hks, hsb]
  · intro hks hsb
    simp [verifyCertWalk, hks, hsb]
  · intro hks
    simp [verifyCertWalk, hks]

theorem claim_C9_witness :
    verifyCert envRootOnly certLeaf [certMid, certRoot] = .ok () ∧
    verifyCertWalk envSpoof certLeaf certLeaf [certMid] =
      .error (.certificateSerialCollision "k1") ∧
    verifyCert envNone certLeaf [certMid] =
      .error (.certificateChainBroken "k1" "k2") ∧
    verifyCert envNone certLeaf [] =
      .error (.untrustedCertificate "k1") := by
  have h1 := claim_C9 envRootOnly certLeaf certLeaf certMid [certRoot]
    certRoot
  have h2 := claim_C9 envRootOnly certLeaf certMid certRoot [] certRoot
  have h3 := claim_C9 envRootOnly certLeaf certRoot certRoot [] certRoot
  have h4 := claim_C9 envSpoof certLeaf certLeaf certMid [] certSpoof
  have h5 := claim_C9 envNone certLeaf certLeaf certMid [] certSpoof
  have h6 := claim_C9 envNone certLeaf certLeaf certMid [] certSpoof
  refine ⟨?_, ?_, ?_, ?_⟩
  · rw [h1.2.2.2.2.2 [certMid, certRoot],
      h1.2.2.2.1 (by decide) (by decide),
      h2.2.2.2.1 (by decide) (by decide)]
    exact (h3.1 (by decide) (by decide)).2
  · exact (h4.2.1 (by decide) (by decide)).1
  · rw [h5.2.2.2.2.2 [certMid]]
    exact h5.2.2.1 (by decide) (by decide)
  · rw [h6.2.2.2.2.2 []]
    exact h6.2.2.2.2.1 (by decide)

/-! ## Claim C10: the one_group guard of verifyDEP -/

/-- C10: in whole-file `verifyDEP`, once a group without a certificate has
been processed via the key-store-backed verifier, processing any subsequent
group raises `NoCertificateGivenException` — even one that carries a
certificate; and a group without a certificate that follows a
certificate-bearing group also raises `NoCertificateGivenException`. -/
theorem claim_C10 (cfg : VCfg) (S S2 : CashRegisterState)
    (used used2 : List String) (g g2 : DEPGroup) (gs : List DEPGroup) :
    (g.hasCert = false → verifyGroup cfg S used g.recs = .ok (S2, used2) →
      verifyDEPLoop cfg none S used (g :: g2 :: gs) =
        .error .noCertificateGiven) ∧
    (g.hasCert = true → g.certOK = true →
      verifyGroup cfg S used g.recs = .ok (S2, used2) →
      g2.hasCert = false →
      verifyDEPLoop cfg none S used (g :: g2 :: gs) =
        .error .noCertificateGiven) := by
  constructor
  · intro hc hok
    simp only [verifyDEPLoop, hc]
    simp [hok, verifyDEPLoop]
  · intro hc hco hok hc2
    simp only [verifyDEPLoop, hc, hco]
    simp [hok, verifyDEPLoop, hc2]

theorem claim_C10_witness :
    verifyDEPLoop cfgPlain none CashRegisterState.fresh []
        [⟨[jwsNull], false, false⟩, ⟨[jwsSale], true, true⟩] =
      .error .noCertificateGiven ∧
    verifyDEPLoop cfgPlain none CashRegisterState.fresh []
        [⟨[jwsNull], true, true⟩, ⟨[jwsSale], false, false⟩] =
      .error .noCertificateGiven := by
  constructor
  · exact (claim_C10 cfgPlain CashRegisterState.fresh
      ⟨some jwsNull, some jwsNull, 0, false⟩ [] ["r1"]
      ⟨[jwsNull], false, false⟩ ⟨[jwsSale], true, true⟩ []).1 rfl (by decide)
  · exact (claim_C10 cfgPlain CashRegisterState.fresh
      ⟨some jwsNull, some jwsNull, 0, false⟩ [] ["r1"]
      ⟨[jwsNull], true, true⟩ ⟨[jwsSale], false, false⟩ []).2 rfl rfl
      (by decide) rfl

/-! ## Claim C5: turnover-counter encryption round trip -/

theorem ctrXor_ctrXor (ks : ℕ → ℕ) (bs : List ℕ) :
    ∀ i, ctrXor ks i (ctrXor ks i bs) = bs := by
  induction bs with
  | nil => intro i; rfl
  | cons b rest ih =>
    intro i
    simp only [ctrXor, ih (i + 1), List.cons.injEq, and_true]
    rw [Nat.xor_assoc, Nat.xor_self, Nat.xor_zero]

theorem natToBytesBE_length (s : ℕ) : ∀ u, (natToBytesBE s u).length = s := by
  induction s with
  | zero => intro u; rfl
  | succ s ih =>
    intro u
    simp [natToBytesBE, ih]

theorem bytesToNatBE_natToBytesBE (s : ℕ) :
    ∀ u, bytesToNatBE (natToBytesBE s u) = u % 256 ^ s := by
  induction s with
  | zero => intro u; simp [natToBytesBE, bytesToNatBE, Nat.mod_one]
  | succ s ih =>
    intro u
    have hfold : bytesToNatBE (natToBytesBE s (u / 256) ++ [u % 256]) =
        bytesToNatBE (natToBytesBE s (u / 256)) * 256 + u % 256 := by
      unfold bytesToNatBE
      rw [List.foldl_append]
      rfl
    unfold natToBytesBE
    rw [hfold, ih (u / 256)]
    have h1 : 256 ^ (s + 1) = 256 * 256 ^ s := by ring
    rw [h1, Nat.mod_mul]
    ring

theorem intFromTo_roundtrip (s : ℕ) (c : ℤ) (hs : 1 ≤ s)
    (hlo : -(2 ^ (8 * s - 1)) ≤ c) (hhi : c < 2 ^ (8 * s - 1)) :
    intFromBytesBESigned (intToBytesBE s c) = c := by
  have hpow : (2 : ℤ) ^ (8 * s) = 2 ^ (8 * s - 1) * 2 := by
    have h8 : 8 * s - 1 + 1 = 8 * s := by omega
    have h9 := pow_succ (2 : ℤ) (8 * s - 1)
    rw [h8] at h9
    exact h9
  have hpos : (0 : ℤ) < 2 ^ (8 * s) := by positivity
  have hmn : 0 ≤ c % 2 ^ (8 * s) := Int.emod_nonneg c (by positivity)
  have hmx : c % 2 ^ (8 * s) < 2 ^ (8 * s) := Int.emod_lt_of_pos c hpos
  have h256 : (256 : ℕ) ^ s = 2 ^ (8 * s) := by
    rw [pow_mul]
    norm_num
  have hlen : (intToBytesBE s c).length = s := natToBytesBE_length s _
  have hval : bytesToNatBE (intToBytesBE s c) =
      (c % 2 ^ (8 * s)).toNat := by
    unfold intToBytesBE
    rw [bytesToNatBE_natToBytesBE, Nat.mod_eq_of_lt]
    rw [h256]
    have : ((c % 2 ^ (8 * s)).toNat : ℤ) < 2 ^ (8 * s) := by
      rwa [Int.toNat_of_nonneg hmn]
    exact_mod_cast this
  unfold intFromBytesBESigned
  rw [hlen, hval]
  rcases le_or_lt 0 c with hc | hc
  · have hce : c % 2 ^ (8 * s) = c := Int.emod_eq_of_lt hc (by omega)
    rw [hce]
    have hlt : 2 * c.toNat < 2 ^ (8 * s) := by
      have : (2 * c.toNat : ℤ) < 2 ^ (8 * s) := by
        rw [Int.toNat_of_nonneg hc]
        omega
      exact_mod_cast this
    simp only [hlt, if_true]
    exact Int.toNat_of_nonneg hc
  · have hce : c % 2 ^ (8 * s) = c + 2 ^ (8 * s) := by
      have h1 : (c + 2 ^ (8 * s) * 1) % 2 ^ (8 * s) = c % 2 ^ (8 * s) :=
        Int.add_mul_emod_self_left c (2 ^ (8 * s)) 1
      have h2 : (c + 2 ^ (8 * s)) % 2 ^ (8 * s) = c + 2 ^ (8 * s) :=
        Int.emod_eq_of_lt (by omega) (by omega)
      rw [← h2]
      rw [mul_one] at h1
      rw [h1]
    rw [hce]
    have hge : ¬(2 * (c + 2 ^ (8 * s)).toNat < 2 ^ (8 * s)) := by
      intro hlt
      have : (2 * (c + 2 ^ (8 * s)).toNat : ℤ) < 2 ^ (8 * s) := by
        exact_mod_cast hlt
      rw [Int.toNat_of_nonneg (by omega)] at this
      omega
    simp only [hge, if_false]
    rw [Int.toNat_of_nonneg (by omega)]
    ring

/-- C5: for every 32-byte key, every size between 5 and 16, every receipt
(whose register and receipt IDs determine the CTR initialization vector),
and every integer representable in `size` signed big-endian bytes,
`R1.decryptTurnoverCounter` inverts `R1.encryptTurnoverCounter`.  The
AES-256-CTR keystream and SHA-256 are arbitrary external primitives. -/
theorem claim_C5 (ks : List ℕ → List ℕ → ℕ → ℕ) (sha256 : String → List ℕ)
    (r : Receipt) (key : List ℕ) (size : ℕ) (c : ℤ)
    (_hkey : key.length = 32) (h5 : 5 ≤ size) (_h16 : size ≤ 16)
    (hlo : -(2 ^ (8 * size - 1)) ≤ c) (hhi : c < 2 ^ (8 * size - 1)) :
    R1decryptTurnoverCounter ks sha256 r
      (R1encryptTurnoverCounter ks sha256 r c key size) key = c := by
  unfold R1decryptTurnoverCounter R1encryptTurnoverCounter aes256ctr
  rw [ctrXor_ctrXor]
  exact intFromTo_roundtrip size c (by omega) hlo hhi

theorem claim_C5_witness :
    ((List.replicate 32 0 : List ℕ).length = 32 ∧
      5 ≤ 5 ∧ (5 : ℕ) ≤ 16 ∧ -(2 ^ (8 * 5 - 1)) ≤ (-259 : ℤ) ∧
      (-259 : ℤ) < 2 ^ (8 * 5 - 1)) ∧
    R1decryptTurnoverCounter (fun _ _ i => i + 7) (fun s => [s.length])
      recNull
      (R1encryptTurnoverCounter (fun _ _ i => i + 7) (fun s => [s.length])
        recNull (-259) (List.replicate 32 0) 5)
      (List.replicate 32 0) = -259 := by
  exact ⟨⟨by decide, by decide, by decide, by decide, by decide⟩,
    claim_C5 (fun _ _ i => i + 7) (fun s => [s.length]) recNull
      (List.replicate 32 0) 5 (-259) (by decide) (by decide) (by decide)
      (by decide) (by decide)⟩

/-! ## Structural lemmas about the receipt loop, towards claim C1 -/

theorem toCRS_ofCRS (S : CashRegisterState) (used : List String) :
    (VState.ofCRS S used).toCRS = S := by
  cases S
  rfl

theorem ofCRS_toCRS (st : VState) :
    VState.ofCRS st.toCRS st.used = st := by
  cases st
  rfl

theorem runReceipts_append (cfg : VCfg) (xs : List JWS) :
    ∀ (ys : List JWS) (st : VState),
      runReceipts cfg st (xs ++ ys) =
        match runReceipts cfg st xs with
        | .error e => .error e
        | .ok st2 => runReceipts cfg st2 ys := by
  induction xs with
  | nil => intro ys st; rfl
  | cons r rest ih =>
    intro ys st
    simp only [List.cons_append, runReceipts]
    rcases h : vStep cfg st r with e | st2 <;> simp only [h]
    exact ih ys st2

theorem turnoverStep_ok (key : Bool) (c : ℤ) (ro : Receipt) (c2 : ℤ)
    (h : turnoverStep key c ro = .ok c2) :
    c2 = c + (if !ro.isDummy && key then ro.turnoverDelta else 0) := by
  unfold turnoverStep at h
  cases hd : ro.isDummy <;> cases hk : key <;> rw [hd, hk] at h <;>
    simp_all
  split at h
  · cases h
  · cases h
    rfl

theorem initStep_ok_start (cfg : VCfg) (prev start : Option JWS) (r : JWS)
    (prev2 start2 : Option JWS)
    (h : initStep cfg prev start r = .ok (prev2, start2)) :
    start2 = (if prev = none then some r else start) := by
  cases prev with
  | some p =>
    simp only [initStep] at h
    cases h
    simp
  | none =>
    simp only [initStep] at h
    split at h
    · cases h
    · split at h
      · cases h
      · split at h
        · split at h
          · cases h
          · split at h
            · cases h
            · cases h; simp
        · cases h; simp

theorem vStep_ok_fields (cfg : VCfg) (st : VState) (r : JWS) (st2 : VState)
    (h : vStep cfg st r = .ok st2) :
    st2.prev = some r ∧
    st2.lastTurnoverCounter = st.lastTurnoverCounter +
      (if !r.ro.isDummy && cfg.key then r.ro.turnoverDelta else 0) ∧
    st2.startReceiptJWS =
      (if st.prev = none then some r else st.startReceiptJWS) ∧
    st2.used = st.used.insert r.ro.receiptId := by
  unfold vStep at h
  rcases hd : discStep st.prev st.needRestoreReceipt r with e | ⟨rk, f1⟩ <;>
    simp only [hd] at h
  · cases h
  rcases h2 : initStep cfg st.prev st.startReceiptJWS r
    with e | ⟨prev2, start2⟩ <;> simp only [h2] at h
  · cases h
  rcases h3 : crossChecks st.used prev2 r.ro with e | u <;>
    simp only [h3] at h
  · cases h
  rcases h4 : chainCheck cfg start2 prev2 r with e | u2 <;>
    simp only [h4] at h
  · cases h
  rcases h5 : turnoverStep cfg.key st.lastTurnoverCounter r.ro
    with e | c2 <;> simp only [h5] at h
  · cases h
  cases h
  exact ⟨rfl, turnoverStep_ok cfg.key st.lastTurnoverCounter r.ro c2 h5,
    initStep_ok_start cfg st.prev st.startReceiptJWS r prev2 start2 h2, rfl⟩

theorem vStep_some_fresh (cfg : VCfg) (st : VState) (r : JWS) (st2 : VState)
    (p : JWS) (h : vStep cfg st r = .ok st2) (hp : st.prev = some p) :
    r.ro.receiptId ∉ st.used := by
  intro hmem
  unfold vStep at h
  rcases hd : discStep st.prev st.needRestoreReceipt r with e | ⟨rk, f1⟩ <;>
    simp only [hd] at h
  · cases h
  rw [hp] at h
  have h2 : initStep cfg (some p) st.startReceiptJWS r =
      .ok (some p, st.startReceiptJWS) := rfl
  simp only [h2] at h
  have h3 : crossChecks st.used (some p) r.ro =
      .error (.duplicateReceiptId r.ro.receiptId) := by
    simp [crossChecks, hmem]
  simp only [h3] at h
  cases h

theorem crossChecks_mono (U V : List String) (prev2 : Option JWS)
    (ro : Receipt) (u : Unit) (h : crossChecks U prev2 ro = .ok u)
    (hsub : ∀ x ∈ V, x ∈ U) : crossChecks V prev2 ro = .ok () := by
  match prev2 with
  | none => rfl
  | some p2 =>
    unfold crossChecks at h ⊢
    by_cases hm : ro.receiptId ∈ U
    · simp [hm] at h
    · have hmV : ro.receiptId ∉ V := fun hc => hm (hsub _ hc)
      simp only [hm, if_false] at h
      simp only [hmV, if_false]
      split at h
      · cases h
      · split at h
        · cases h
        · simp_all

theorem vStep_used_transfer (cfg : VCfg) (st : VState) (r : JWS)
    (st2 : VState) (V : List String) (h : vStep cfg st r = .ok st2)
    (hsub : ∀ x ∈ V, x ∈ st.used) :
    vStep cfg ⟨st.prev, st.needRestoreReceipt, st.startReceiptJWS,
      st.lastTurnoverCounter, V⟩ r =
      .ok ⟨st2.prev, st2.needRestoreReceipt, st2.startReceiptJWS,
        st2.lastTurnoverCounter, V.insert r.ro.receiptId⟩ := by
  unfold vStep at h ⊢
  rcases hd : discStep st.prev st.needRestoreReceipt r with e | ⟨rk, f1⟩ <;>
    simp only [hd] at h ⊢
  · cases h
  rcases h2 : initStep cfg st.prev st.startReceiptJWS r
    with e | ⟨prev2, start2⟩ <;> simp only [h2] at h ⊢
  · cases h
  rcases h3 : crossChecks st.used prev2 r.ro with e | u <;>
    simp only [h3] at h
  · cases h
  rw [crossChecks_mono st.used V prev2 r.ro u h3 hsub]
  rcases h4 : chainCheck cfg start2 prev2 r with e | u2 <;>
    simp only [h4] at h ⊢
  · cases h
  rcases h5 : turnoverStep cfg.key st.lastTurnoverCounter r.ro
    with e | c2 <;> simp only [h5] at h ⊢
  · cases h
  cases h
  rfl

theorem runReceipts_used_mem (cfg : VCfg) (rs : List JWS) :
    ∀ (st st' : VState), runReceipts cfg st rs = .ok st' →
      ∀ x, x ∈ st'.used ↔ x ∈ st.used ∨ x ∈ receiptIds rs := by
  induction rs with
  | nil =>
    intro st st' h x
    cases h
    simp [receiptIds]
  | cons r rest ih =>
    intro st st' h x
    unfold runReceipts at h
    rcases hv : vStep cfg st r with e | st2 <;> simp only [hv] at h
    · cases h
    have hf := vStep_ok_fields cfg st r st2 hv
    have hx := ih st2 st' h x
    rw [hf.2.2.2] at hx
    simp only [receiptIds, List.map_cons, List.mem_cons]
    rw [hx, List.mem_insert_iff]
    show _ ↔ _ ∨ x = r.ro.receiptId ∨ x ∈ rest.map fun j => j.ro.receiptId
    tauto

theorem runReceipts_used_nodup (cfg : VCfg) (rs : List JWS) :
    ∀ (st st' : VState), runReceipts cfg st rs = .ok st' →
      st.used.Nodup → st'.used.Nodup := by
  induction rs with
  | nil => intro st st' h hn; cases h; exact hn
  | cons r rest ih =>
    intro st st' h hn
    unfold runReceipts at h
    rcases hv : vStep cfg st r with e | st2 <;> simp only [hv] at h
    · cases h
    have hf := vStep_ok_fields cfg st r st2 hv
    refine ih st2 st' h ?_
    rw [hf.2.2.2]
    exact hn.insert

theorem runReceipts_some_fresh (cfg : VCfg) (rs : List JWS) :
    ∀ (st st' : VState) (p : JWS), runReceipts cfg st rs = .ok st' →
      st.prev = some p →
      (receiptIds rs).Nodup ∧ ∀ x ∈ receiptIds rs, x ∉ st.used := by
  induction rs with
  | nil =>
    intro st st' p h hp
    exact ⟨List.nodup_nil, by simp [receiptIds]⟩
  | cons r rest ih =>
    intro st st' p h hp
    unfold runReceipts at h
    rcases hv : vStep cfg st r with e | st2 <;> simp only [hv] at h
    · cases h
    have hf := vStep_ok_fields cfg st r st2 hv
    have hfresh := vStep_some_fresh cfg st r st2 p hv hp
    obtain ⟨hnd, hnotin⟩ := ih st2 st' r h hf.1
    rw [hf.2.2.2] at hnotin
    constructor
    · simp only [receiptIds, List.map_cons]
      refine List.Nodup.cons ?_ hnd
      intro hc
      exact hnotin _ hc (List.mem_insert_self _ _)
    · intro x hx
      simp only [receiptIds, List.map_cons, List.mem_cons] at hx
      rcases hx with hx | hx
      · subst hx; exact hfresh
      · intro hc
        exact hnotin x hx (List.mem_insert_of_mem hc)

theorem runReceipts_ids_nodup (cfg : VCfg) (rs : List JWS)
    (st st' : VState) (h : runReceipts cfg st rs = .ok st') :
    (receiptIds rs).Nodup := by
  cases rs with
  | nil => exact List.nodup_nil
  | cons r rest =>
    unfold runReceipts at h
    rcases hv : vStep cfg st r with e | st2 <;> simp only [hv] at h
    · cases h
    have hf := vStep_ok_fields cfg st r st2 hv
    obtain ⟨hnd, hnotin⟩ := runReceipts_some_fresh cfg rest st2 st' r h hf.1
    simp only [receiptIds, List.map_cons]
    refine List.Nodup.cons ?_ hnd
    intro hc
    refine hnotin _ hc ?_
    rw [hf.2.2.2]
    exact List.mem_insert_self _ _

theorem runReceipts_used_transfer (cfg : VCfg) (rs : List JWS) :
    ∀ (p : Option JWS) (f : Bool) (s : Option JWS) (c : ℤ)
      (U V : List String) (stU : VState),
      runReceipts cfg ⟨p, f, s, c, U⟩ rs = .ok stU →
      (∀ x ∈ V, x ∈ U) →
      ∃ stV, runReceipts cfg ⟨p, f, s, c, V⟩ rs = .ok stV ∧
        stV.prev = stU.prev ∧
        stV.needRestoreReceipt = stU.needRestoreReceipt ∧
        stV.startReceiptJWS = stU.startReceiptJWS ∧
        stV.lastTurnoverCounter = stU.lastTurnoverCounter ∧
        (∀ x, x ∈ stV.used ↔ x ∈ V ∨ x ∈ receiptIds rs) ∧
        (V.Nodup → stV.used.Nodup) := by
  induction rs with
  | nil =>
    intro p f s c U V stU h hsub
    cases h
    exact ⟨⟨p, f, s, c, V⟩, rfl, rfl, rfl, rfl, rfl,
      by simp [receiptIds], fun hn => hn⟩
  | cons r rest ih =>
    intro p f s c U V stU h hsub
    unfold runReceipts at h
    rcases hv : vStep cfg ⟨p, f, s, c, U⟩ r with e | st2 <;>
      simp only [hv] at h
    · cases h
    have hf := vStep_ok_fields cfg ⟨p, f, s, c, U⟩ r st2 hv
    have hvV := vStep_used_transfer cfg ⟨p, f, s, c, U⟩ r st2 V hv hsub
    have hsub2 : ∀ x ∈ V.insert r.ro.receiptId, x ∈ st2.used := by
      intro x hx
      rw [hf.2.2.2]
      rcases List.mem_insert_iff.mp hx with hx | hx
      · rw [hx]; exact List.mem_insert_self _ _
      · exact List.mem_insert_of_mem (hsub x hx)
    have h2 : runReceipts cfg ⟨st2.prev, st2.needRestoreReceipt,
        st2.startReceiptJWS, st2.lastTurnoverCounter, st2.used⟩ rest =
        .ok stU := h
    obtain ⟨stV, hrun, e1, e2, e3, e4, e5, e6⟩ :=
      ih st2.prev st2.needRestoreReceipt st2.startReceiptJWS
        st2.lastTurnoverCounter st2.used (V.insert r.ro.receiptId) stU h2
        hsub2
    refine ⟨stV, ?_, e1, e2, e3, e4, ?_, ?_⟩
    · unfold runReceipts
      rw [hvV]
      exact hrun
    · intro x
      rw [e5 x, List.mem_insert_iff]
      simp only [receiptIds, List.map_cons, List.mem_cons]
      show _ ∨ _ ↔ _ ∨ x = r.ro.receiptId ∨
        x ∈ rest.map fun j => j.ro.receiptId
      tauto
    · intro hn
      exact e6 hn.insert

theorem fromDEPGroup_proj (cfg : VCfg) (g : List JWS) :
    ∀ (st st' : VState) (φ : Bool), runReceipts cfg st g = .ok st' →
      fromDEPGroup cfg.key
        ⟨st.startReceiptJWS, st.prev, st.lastTurnoverCounter, φ⟩ g =
        ⟨st'.startReceiptJWS, st'.prev, st'.lastTurnoverCounter, φ⟩ := by
  induction g with
  | nil =>
    intro st st' φ h
    cases h
    rfl
  | cons r rest ih =>
    intro st st' φ h
    unfold runReceipts at h
    rcases hv : vStep cfg st r with e | st2 <;> simp only [hv] at h
    · cases h
    have hf := vStep_ok_fields cfg st r st2 hv
    have hd : depStep cfg.key
        ⟨st.startReceiptJWS, st.prev, st.lastTurnoverCounter, φ⟩ r =
        ⟨st2.startReceiptJWS, st2.prev, st2.lastTurnoverCounter, φ⟩ := by
      simp only [depStep]
      rw [← hf.2.2.1, ← hf.2.1, ← hf.1]
    show fromDEPGroup cfg.key _ (r :: rest) = _
    unfold fromDEPGroup
    rw [List.foldl_cons, hd]
    exact ih st2 st' φ h

theorem fromDEPChunk_proj (cfg : VCfg) (ch : List (List JWS)) :
    ∀ (st st' : VState) (φ : Bool),
      runReceipts cfg st (chunkReceipts ch) = .ok st' →
      fromDEPChunk cfg.key
        ⟨st.startReceiptJWS, st.prev, st.lastTurnoverCounter, φ⟩ ch =
        ⟨st'.startReceiptJWS, st'.prev, st'.lastTurnoverCounter, φ⟩ := by
  induction ch with
  | nil =>
    intro st st' φ h
    cases h
    rfl
  | cons g gs ih =>
    intro st st' φ h
    have hsplit : chunkReceipts (g :: gs) = g ++ chunkReceipts gs := rfl
    rw [hsplit, runReceipts_append] at h
    rcases h1 : runReceipts cfg st g with e | st1 <;> simp only [h1] at h
    · cases h
    have hg := fromDEPGroup_proj cfg g st st1 φ h1
    show fromDEPChunk cfg.key _ (g :: gs) = _
    unfold fromDEPChunk
    rw [List.foldl_cons]
    show fromDEPChunk cfg.key (fromDEPGroup cfg.key _ g) gs = _
    rw [hg]
    exact ih st1 st' φ h

theorem verifyGroupsWithVerifiers_eq (cfg : VCfg) (ch : List (List JWS)) :
    ∀ (S : CashRegisterState) (used : List String),
      verifyGroupsWithVerifiers cfg S used ch =
        match runReceipts cfg (VState.ofCRS S used) (chunkReceipts ch) with
        | .error e => .error e
        | .ok st => .ok (st.toCRS, st.used) := by
  induction ch with
  | nil =>
    intro S used
    show Except.ok (S, used) = Except.ok ((VState.ofCRS S used).toCRS,
      (VState.ofCRS S used).used)
    rw [toCRS_ofCRS]
    rfl
  | cons g gs ih =>
    intro S used
    have hsplit : chunkReceipts (g :: gs) = g ++ chunkReceipts gs := rfl
    rw [hsplit, runReceipts_append]
    rcases h1 : runReceipts cfg (VState.ofCRS S used) g with e | st1 <;>
      simp only [verifyGroupsWithVerifiers, verifyGroup, h1]
    rw [ih st1.toCRS st1.used, ofCRS_toCRS]

theorem chunksReceipts_cons (ch : List (List JWS))
    (chs : List (List (List JWS))) :
    chunksReceipts (ch :: chs) = chunkReceipts ch ++ chunksReceipts chs :=
  rfl

theorem chunksReceipts_append (xs : List (List (List JWS))) :
    ∀ ys, chunksReceipts (xs ++ ys) =
      chunksReceipts xs ++ chunksReceipts ys := by
  induction xs with
  | nil => intro ys; rfl
  | cons ch chs ih =>
    intro ys
    rw [List.cons_append, chunksReceipts_cons, chunksReceipts_cons, ih,
      List.append_assoc]

theorem getChunksForProcs_flatten (nprocs : ℕ) :
    ∀ (l acc : List (List (List JWS))),
      (getChunksForProcs nprocs acc l).flatten = acc ++ l := by
  intro l
  induction l with
  | nil =>
    intro acc
    unfold getChunksForProcs
    cases hacc : acc.isEmpty
    · simp
    · rw [List.isEmpty_iff] at hacc
      simp [hacc]
  | cons c cs ih =>
    intro acc
    unfold getChunksForProcs
    split
    · rw [List.flatten_cons, ih []]
      simp
    · rw [ih (acc ++ [c])]
      simp

theorem getChunksForProcs_batch_nonempty (nprocs : ℕ) :
    ∀ (l acc b : List (List (List JWS))),
      b ∈ getChunksForProcs nprocs acc l → b ≠ [] := by
  intro l
  induction l with
  | nil =>
    intro acc b hb
    unfold getChunksForProcs at hb
    split at hb
    · simp at hb
    · simp at hb
      subst hb
      intro hc
      subst hc
      simp_all
  | cons c cs ih =>
    intro acc b hb
    unfold getChunksForProcs at hb
    split at hb
    · rcases List.mem_cons.mp hb with hb | hb
      · subst hb
        simp
      · exact ih [] b hb
    · exact ih (acc ++ [c]) b hb

theorem runBatch_nil (cfg : VCfg) (S : CashRegisterState) :
    runBatch cfg S [] = .ok [] := rfl

theorem runBatch_cons (cfg : VCfg) (S : CashRegisterState)
    (ch : List (List JWS)) (chs : List (List (List JWS))) :
    runBatch cfg S (ch :: chs) =
      match verifyGroupsWithVerifiers cfg S [] ch with
      | .error e => .error e
      | .ok res =>
        match runBatch cfg (fromDEPChunk cfg.key S ch) chs with
        | .error e => .error e
        | .ok results => .ok (res :: results) := by
  show (((ch, S) ::
      chs.zip (pkgStates cfg.key (fromDEPChunk cfg.key S ch) chs)).mapM
        (fun pc => verifyGroupsWithVerifiers cfg pc.2 [] pc.1)) = _
  rw [List.mapM_cons]
  rcases h1 : verifyGroupsWithVerifiers cfg S [] ch with e | res <;>
    simp only [h1]
  · rfl
  · rcases h2 : (chs.zip (pkgStates cfg.key (fromDEPChunk cfg.key S ch)
      chs)).mapM (fun pc => verifyGroupsWithVerifiers cfg pc.2 [] pc.1)
      with e | results <;>
      simp only [runBatch, h2] <;> rfl

theorem batch_run_ok (cfg : VCfg) (chs : List (List (List JWS))) :
    ∀ (T Tend : VState),
      T.needRestoreReceipt = false →
      runReceipts cfg T (chunksReceipts chs) = .ok Tend →
      (∀ (n : ℕ) (T2 : VState),
        runReceipts cfg T (chunksReceipts (chs.take n)) = .ok T2 →
        T2.needRestoreReceipt = false) →
      (receiptIds (chunksReceipts chs)).Nodup →
      ∃ results, runBatch cfg T.toCRS chs = .ok results ∧
        ((results.map Prod.fst).getLast?).getD T.toCRS = Tend.toCRS ∧
        (∀ x, x ∈ (results.map Prod.snd).flatten ↔
          x ∈ receiptIds (chunksReceipts chs)) ∧
        ((results.map Prod.snd).flatten).Nodup := by
  induction chs with
  | nil =>
    intro T Tend hT hb hflags hnodup
    cases hb
    exact ⟨[], rfl, rfl, by simp [chunksReceipts, receiptIds],
      List.nodup_nil⟩
  | cons ch chs ih =>
    intro T Tend hT hb hflags hnodup
    rw [chunksReceipts_cons, runReceipts_append] at hb
    rcases h1 : runReceipts cfg T (chunkReceipts ch) with e | T1 <;>
      simp only [h1] at hb
    · cases hb
    have hchr1 : chunksReceipts ((ch :: chs).take 1) = chunkReceipts ch := by
      show chunksReceipts [ch] = chunkReceipts ch
      rw [chunksReceipts_cons]
      simp [chunksReceipts]
    have hT1 : T1.needRestoreReceipt = false := by
      refine hflags 1 T1 ?_
      rw [hchr1]
      exact h1
    have hids : receiptIds (chunkReceipts ch ++ chunksReceipts chs) =
        receiptIds (chunkReceipts ch) ++
          receiptIds (chunksReceipts chs) := by
      simp [receiptIds]
    rw [chunksReceipts_cons, hids] at hnodup
    have hndch : (receiptIds (chunkReceipts ch)).Nodup :=
      hnodup.of_append_left
    have hndrest : (receiptIds (chunksReceipts chs)).Nodup :=
      hnodup.of_append_right
    have hdisj : ∀ x ∈ receiptIds (chunkReceipts ch),
        x ∉ receiptIds (chunksReceipts chs) := by
      intro x hx
      exact (List.disjoint_of_nodup_append hnodup) hx
    have htr := runReceipts_used_transfer cfg (chunkReceipts ch) T.prev
      T.needRestoreReceipt T.startReceiptJWS T.lastTurnoverCounter T.used
      [] T1 h1 (by intro x hx; cases hx)
    obtain ⟨stV, hrunV, e1, e2, e3, e4, e5, e6⟩ := htr
    have hpkg : verifyGroupsWithVerifiers cfg T.toCRS [] ch =
        .ok (stV.toCRS, stV.used) := by
      rw [verifyGroupsWithVerifiers_eq]
      have : VState.ofCRS T.toCRS [] =
          ⟨T.prev, T.needRestoreReceipt, T.startReceiptJWS,
            T.lastTurnoverCounter, []⟩ := rfl
      rw [this, hrunV]
    have hstV : stV.toCRS = T1.toCRS := by
      unfold VState.toCRS
      rw [e1, e2, e3, e4]
    have hproj : fromDEPChunk cfg.key T.toCRS ch = T1.toCRS := by
      have h0 := fromDEPChunk_proj cfg ch T T1 false h1
      unfold VState.toCRS
      rw [hT, hT1]
      exact h0
    have hflags2 : ∀ (n : ℕ) (T2 : VState),
        runReceipts cfg T1 (chunksReceipts (chs.take n)) = .ok T2 →
        T2.needRestoreReceipt = false := by
      intro n T2 hr
      refine hflags (n + 1) T2 ?_
      rw [List.take_succ_cons, chunksReceipts_cons, runReceipts_append, h1]
      exact hr
    obtain ⟨results, hrb, hlast, hmem, hnd⟩ := ih T1 Tend hT1 hb hflags2
      hndrest
    refine ⟨(stV.toCRS, stV.used) :: results, ?_, ?_, ?_, ?_⟩
    · rw [runBatch_cons, hpkg, hproj, hrb]
    · simp only [List.map_cons, List.getLast?_cons, Option.getD_some]
      rw [hstV]
      exact hlast
    · intro x
      simp only [List.map_cons, List.flatten_cons, List.mem_append,
        chunksReceipts_cons, hids, e5 x, hmem x]
      simp
    · simp only [List.map_cons, List.flatten_cons]
      rw [List.nodup_append]
      refine ⟨e6 List.nodup_nil, hnd, ?_⟩
      intro x hx hx2
      have hx' : x ∈ receiptIds (chunkReceipts ch) := by
        have := (e5 x).mp hx
        simpa using this
      have hx2' : x ∈ receiptIds (chunksReceipts chs) := (hmem x).mp hx2
      exact hdisj x hx' hx2'

theorem vpLoop_ok (cfg : VCfg) (bs : List (List (List (List JWS)))) :
    ∀ (T Tfin : VState) (usedP : List String),
      T.needRestoreReceipt = false →
      usedP.Nodup →
      (∀ x, x ∈ usedP ↔ x ∈ T.used) →
      runReceipts cfg T (chunksReceipts bs.flatten) = .ok Tfin →
      (∀ (n : ℕ) (T2 : VState),
        runReceipts cfg T (chunksReceipts (bs.flatten.take n)) = .ok T2 →
        T2.needRestoreReceipt = false) →
      (receiptIds (chunksReceipts bs.flatten)).Nodup →
      (∀ x ∈ receiptIds (chunksReceipts bs.flatten), x ∉ usedP) →
      ∃ usedF, vpLoop cfg T.toCRS usedP bs = .ok (Tfin.toCRS, usedF) ∧
        usedF.Nodup ∧ (∀ x, x ∈ usedF ↔ x ∈ Tfin.used) := by
  induction bs with
  | nil =>
    intro T Tfin usedP hT hun hum hrun hflags hnodup hdisj
    cases hrun
    exact ⟨usedP, rfl, hun, hum⟩
  | cons b bs ih =>
    intro T Tfin usedP hT hun hum hrun hflags hnodup hdisj
    rw [List.flatten_cons, chunksReceipts_append, runReceipts_append]
      at hrun
    rcases h1 : runReceipts cfg T (chunksReceipts b) with e | Tend <;>
      simp only [h1] at hrun
    · cases hrun
    have htakeb : (b ++ bs.flatten).take b.length = b := List.take_left b _
    have hTend : Tend.needRestoreReceipt = false := by
      refine hflags b.length Tend ?_
      rw [List.flatten_cons, htakeb]
      exact h1
    have hids : receiptIds (chunksReceipts b ++ chunksReceipts bs.flatten) =
        receiptIds (chunksReceipts b) ++
          receiptIds (chunksReceipts bs.flatten) := by
      simp [receiptIds]
    rw [List.flatten_cons, chunksReceipts_append, hids] at hnodup
    have hndb : (receiptIds (chunksReceipts b)).Nodup :=
      hnodup.of_append_left
    have hndrest : (receiptIds (chunksReceipts bs.flatten)).Nodup :=
      hnodup.of_append_right
    have hdisjbr : ∀ x ∈ receiptIds (chunksReceipts b),
        x ∉ receiptIds (chunksReceipts bs.flatten) := by
      intro x hx
      exact List.disjoint_of_nodup_append hnodup hx
    have hdisjb : ∀ x ∈ receiptIds (chunksReceipts b), x ∉ usedP := by
      intro x hx
      refine hdisj x ?_
      rw [List.flatten_cons, chunksReceipts_append, hids]
      exact List.mem_append_left _ hx
    have hdisjrest : ∀ x ∈ receiptIds (chunksReceipts bs.flatten),
        x ∉ usedP := by
      intro x hx
      refine hdisj x ?_
      rw [List.flatten_cons, chunksReceipts_append, hids]
      exact List.mem_append_right _ hx
    have hflagsb : ∀ (n : ℕ) (T2 : VState),
        runReceipts cfg T (chunksReceipts (b.take n)) = .ok T2 →
        T2.needRestoreReceipt = false := by
      intro n T2 hr
      rcases le_or_lt n b.length with hle | hlt
      · refine hflags n T2 ?_
        rw [List.flatten_cons, List.take_append_of_le_length hle]
        exact hr
      · rw [List.take_of_length_le (le_of_lt hlt)] at hr
        rw [h1] at hr
        cases hr
        exact hTend
    obtain ⟨results, hrb, hlast, hmem, hnd⟩ :=
      batch_run_ok cfg b T Tend hT h1 hflagsb hndb
    have hmerge : updateUsedReceiptIds (results.map Prod.snd) usedP =
        .ok (usedP ++ (results.map Prod.snd).flatten) := by
      have hbig : (([] : List String) ++
          (usedP :: results.map Prod.snd).flatten).Nodup := by
        simp only [List.nil_append, List.flatten_cons]
        rw [List.nodup_append]
        refine ⟨hun, hnd, ?_⟩
        intro x hx hx2
        exact hdisjb x ((hmem x).mp hx2) hx
      have := foldAdd_ok (usedP :: results.map Prod.snd) [] hbig
      unfold updateUsedReceiptIds
      rw [this]
      simp
    have hum2 : ∀ x, x ∈ usedP ++ (results.map Prod.snd).flatten ↔
        x ∈ Tend.used := by
      intro x
      rw [List.mem_append, hum x, hmem x,
        runReceipts_used_mem cfg (chunksReceipts b) T Tend h1 x]
    have hun2 : (usedP ++ (results.map Prod.snd).flatten).Nodup := by
      rw [List.nodup_append]
      refine ⟨hun, hnd, ?_⟩
      intro x hx hx2
      exact hdisjb x ((hmem x).mp hx2) hx
    have hflags2 : ∀ (n : ℕ) (T2 : VState),
        runReceipts cfg Tend (chunksReceipts (bs.flatten.take n)) =
          .ok T2 → T2.needRestoreReceipt = false := by
      intro n T2 hr
      refine hflags (b.length + n) T2 ?_
      rw [List.flatten_cons, List.take_append, chunksReceipts_append,
        runReceipts_append, h1]
      exact hr
    have hdisjrest2 : ∀ x ∈ receiptIds (chunksReceipts bs.flatten),
        x ∉ usedP ++ (results.map Prod.snd).flatten := by
      intro x hx hc
      rcases List.mem_append.mp hc with hc | hc
      · exact hdisjrest x hx hc
      · exact hdisjbr x ((hmem x).mp hc) hx
    obtain ⟨usedF, hloop, hunF, humF⟩ := ih Tend Tfin
      (usedP ++ (results.map Prod.snd).flatten) hTend hun2 hum2 hrun
      hflags2 hndrest hdisjrest2
    refine ⟨usedF, ?_, hunF, humF⟩
    show vpLoop cfg T.toCRS usedP (b :: bs) = _
    simp only [vpLoop, hrb, hmerge, hlast]
    exact hloop

/-! ## Claim C1: parallel verification refines the sequential run -/

/-- C1 counterexample: a valid one-receipt DEP for a fresh register whose
initial receipt reuses an ID from the caller-supplied used set.  The
sequential run accepts it (the initial receipt bypasses the duplicate
check), but `verifyParsedDEP` — which hands every work package an empty
used-ID set and merges with `updateUsedReceiptIds` afterwards — raises
`DuplicateReceiptIdException` at the merge, already with `nprocs = 1`. -/
theorem claim_C1_counterexample :
    verifyGroup cfgPlain CashRegisterState.fresh ["x"]
        (streamReceipts [[[jwsX]]]) =
      .ok (⟨some jwsX, some jwsX, 0, false⟩, ["x"]) ∧
    verifyParsedDEP cfgPlain 1 CashRegisterState.fresh ["x"] [[[jwsX]]] =
      .error (.duplicateReceiptId "x") := by
  exact ⟨by decide, by decide⟩

/-- C1 (amended): for a non-empty parsed DEP and any `nprocs ≥ 1`, if the
sequential single-worker run from the caller-supplied register state and
used-ID set succeeds, the caller state carries no pending restore
obligation, no receipt ID of the DEP already occurs in the caller-supplied
used-ID set, and the sequential run's `needRestoreReceipt` flag is clear at
every chunk boundary, then `verifyParsedDEP` — with its per-chunk starting
states precomputed by `prepareVerificationTuples` — succeeds with the same
final register state and the same used-receipt-ID set. -/
theorem claim_C1 (cfg : VCfg) (stream : List (List (List JWS)))
    (nprocs : ℕ) (S0 Sfin : CashRegisterState) (used0 usedSeq : List String)
    (_hnp : 1 ≤ nprocs) (_hne : stream ≠ []) (hn0 : used0.Nodup)
    (hflag0 : S0.needRestoreReceipt = false)
    (hfresh : ∀ r ∈ streamReceipts stream, r.ro.receiptId ∉ used0)
    (hseq : verifyGroup cfg S0 used0 (streamReceipts stream) =
      .ok (Sfin, usedSeq))
    (hflags : ∀ k ∈ List.range (stream.length + 1),
      seqFlagClear cfg S0 used0 (streamReceipts (stream.take k)) = true) :
    ∃ usedP, verifyParsedDEP cfg nprocs S0 used0 stream =
      .ok (Sfin, usedP) ∧ ∀ x, x ∈ usedP ↔ x ∈ usedSeq := by
  unfold verifyGroup at hseq
  rcases hrun : runReceipts cfg (VState.ofCRS S0 used0)
    (streamReceipts stream) with e | stFin <;> simp only [hrun] at hseq
  · cases hseq
  cases hseq
  have hT0 : (VState.ofCRS S0 used0).needRestoreReceipt = false := hflag0
  have hflat : (getChunksForProcs nprocs [] stream).flatten = stream := by
    have := getChunksForProcs_flatten nprocs stream []
    simpa using this
  have hsr : chunksReceipts stream = streamReceipts stream := rfl
  have hflags2 : ∀ (n : ℕ) (T2 : VState),
      runReceipts cfg (VState.ofCRS S0 used0)
        (chunksReceipts ((getChunksForProcs nprocs [] stream).flatten.take
          n)) = .ok T2 → T2.needRestoreReceipt = false := by
    intro n T2 hr
    rw [hflat] at hr
    rcases le_or_lt n stream.length with hle | hlt
    · have hk := hflags n (List.mem_range.mpr (by omega))
      unfold seqFlagClear at hk
      have : streamReceipts (stream.take n) =
          chunksReceipts (stream.take n) := rfl
      rw [this, hr] at hk
      simpa using hk
    · rw [List.take_of_length_le (le_of_lt hlt)] at hr
      have hk := hflags stream.length (List.mem_range.mpr (by omega))
      unfold seqFlagClear at hk
      have htk : stream.take stream.length = stream :=
        List.take_length stream
      rw [htk] at hk
      have h1 := hrun.symm.trans hr
      cases h1
      rw [hrun] at hk
      simpa using hk
  have hnodup : (receiptIds (chunksReceipts
      ((getChunksForProcs nprocs [] stream).flatten))).Nodup := by
    rw [hflat, hsr]
    exact runReceipts_ids_nodup cfg _ _ _ hrun
  have hdisj : ∀ x ∈ receiptIds (chunksReceipts
      ((getChunksForProcs nprocs [] stream).flatten)), x ∉ used0 := by
    rw [hflat, hsr]
    intro x hx
    obtain ⟨r, hr, hrx⟩ := List.mem_map.mp hx
    subst hrx
    exact hfresh r hr
  have hrun2 : runReceipts cfg (VState.ofCRS S0 used0)
      (chunksReceipts ((getChunksForProcs nprocs [] stream).flatten)) =
      .ok stFin := by
    rw [hflat, hsr]
    exact hrun
  obtain ⟨usedF, hloop, hunF, humF⟩ := vpLoop_ok cfg
    (getChunksForProcs nprocs [] stream) (VState.ofCRS S0 used0) stFin
    used0 hT0 hn0 (fun x => Iff.rfl) hrun2 hflags2 hnodup hdisj
  refine ⟨usedF, ?_, humF⟩
  show vpLoop cfg S0 used0 (getChunksForProcs nprocs [] stream) = _
  rw [← toCRS_ofCRS S0 used0]
  exact hloop

theorem claim_C1_witness :
    ∃ usedP, verifyParsedDEP cfgPlain 2 CashRegisterState.fresh []
        [[[jwsNull]], [[jwsSale]], [[jwsSale2]]] =
      .ok (⟨some jwsNull, some jwsSale2, 0, false⟩, usedP) ∧
      ∀ x, x ∈ usedP ↔ x ∈ (["r4", "r3", "r1"] : List String) := by
  exact claim_C1 cfgPlain [[[jwsNull]], [[jwsSale]], [[jwsSale2]]] 2
    CashRegisterState.fresh ⟨some jwsNull, some jwsSale2, 0, false⟩ []
    ["r4", "r3", "r1"] (by decide) (by decide) List.nodup_nil rfl
    (by decide) (by decide) (by decide)

end RKSV
